import Mathlib

/-!
# go-fiber-api: the in-memory item store and its five handlers

A shallow embedding of `handlers/item.go` and of the item routes of `main.go`.

* The package-level variables `itemStore` and `nextItemID` are the two fields of `Store`;
  every handler is a function from the request context and the store before the call to the
  handler's result and the store after it.
* Go's `int` is embedded as `Int`.  The only arithmetic of the program is `nextItemID++`,
  which starts at 1 and adds one per successful create (`nextItemID_le_calls` below), so
  the counter stays far inside the range of `int` on every run of fewer than `2^63 - 1`
  requests; wrap-around of the counter is outside this development.
* `map[int]Item` is embedded as an association list with distinct keys (`AList`);
  `m[k]` is `AList.lookup`, `m[k] = v` is `AList.insert`, `delete(m, k)` is `AList.erase`.
* A request body is the JSON members `id`, `name`, `quantity` it carries (`Fields`);
  `Ctx.BodyParser` decodes them into an `Item` and fails, as `encoding/json` does, on a
  member whose value its field cannot take.
* The handlers run under `storeMu` from `Lock` to the deferred `Unlock`.  `ListItems` to
  `DeleteItem` embed each handler as one atomic step on the store, the sequential behaviour
  the mutex gives; `ListItemsMu` to `DeleteItemMu` embed the same handlers statement by
  statement with the mutex as a held/free flag, and agree with the former
  (`C14_lock_discipline`).
* Concurrent requests are goroutines that take the statements of `CreateItemMu` one step at
  a time (`Goroutine.step`), interleaved by a schedule (`runSchedule`); a goroutine that
  runs alone agrees with `CreateItemMu` (`solo_agrees`).
-/

namespace Handlers

/-! ## Data model -/

/-- Item represents our resource (`type Item struct`). -/
structure Item where
  ID : Int
  Name : String
  Quantity : Int
  deriving DecidableEq, Repr

/-- The zero value of `Item`, what `var newItem Item` declares. -/
def Item.zero : Item := { ID := 0, Name := "", Quantity := 0 }

/-- The package-level variables `itemStore` and `nextItemID`. -/
structure Store where
  itemStore : AList (fun _ : Int => Item)
  nextItemID : Int

/-- The store at process start: `itemStore = make(map[int]Item)`, `nextItemID = 1`. -/
def Store.fresh : Store := { itemStore := ∅, nextItemID := 1 }

/-! ## The request context and the library calls the handlers make -/

/-- A JSON value, as far as decoding into the fields of `Item` tells values apart: `null`,
a number written as an integer literal, a string, and any other value (a number with a
fraction or an exponent, a boolean, an array, an object). -/
inductive JsonValue where
  | null
  | int (n : Int)
  | str (s : String)
  | other
  deriving DecidableEq, Repr

/-- The members of a JSON request body that carry the tags of `Item` (`id`, `name`,
`quantity`); a member that the body omits is `none`. -/
structure Fields where
  id : Option JsonValue
  name : Option JsonValue
  quantity : Option JsonValue
  deriving DecidableEq, Repr

/-- Decoding of a member into a field of type `int` that holds `cur`: an omitted member
and `null` leave the field as it is, an integer literal that fits the 64-bit `int` is
stored, and every other value is a decoding error. -/
def decodeInt (cur : Int) : Option JsonValue → Option Int
  | none => some cur
  | some JsonValue.null => some cur
  | some (JsonValue.int n) =>
    if -(2 ^ 63 : Int) ≤ n ∧ n < (2 ^ 63 : Int) then some n else none
  | some (JsonValue.str _) => none
  | some JsonValue.other => none

/-- Decoding of a member into a field of type `string` that holds `cur`: an omitted member
and `null` leave the field as it is, a string is stored, and every other value is a
decoding error. -/
def decodeString (cur : String) : Option JsonValue → Option String
  | none => some cur
  | some JsonValue.null => some cur
  | some (JsonValue.str s) => some s
  | some (JsonValue.int _) => none
  | some JsonValue.other => none

/-- The part of `*fiber.Ctx` the handlers read: the route parameter `id` and the request
body, `none` when the body is not a JSON object. -/
structure Ctx where
  paramId : String
  body : Option Fields
  deriving DecidableEq, Repr

/-- The call `c.Params(key)`: the route parameter, the empty string for an unknown key. -/
def Ctx.Params (c : Ctx) (key : String) : String :=
  if key = "id" then c.paramId else ""

/-- The call `c.BodyParser(&out)`: `none` is a decoding error, returned when the body is
not a JSON object at all and when a member has a value its field cannot take; otherwise
the members present in the body overwrite the fields of `out`, and the fields the body
omits keep the value `out` had (the zero value, for a freshly declared struct). -/
def Ctx.BodyParser (c : Ctx) (out : Item) : Option Item :=
  match c.body with
  | none => none
  | some f =>
    match decodeInt out.ID f.id, decodeString out.Name f.name,
        decodeInt out.Quantity f.quantity with
    | some id, some name, some quantity => some { ID := id, Name := name, Quantity := quantity }
    | _, _, _ => none

/-- The digit loop of `strconv.Atoi`: base-10 digits only, accumulated left to right. -/
def atoiDigits : List Char → Nat → Option Nat
  | [], n => some n
  | ch :: cs, n =>
    if 48 ≤ ch.toNat ∧ ch.toNat ≤ 57 then atoiDigits cs (n * 10 + (ch.toNat - 48)) else none

/-- The standard-library call `strconv.Atoi` on a 64-bit platform: an optional sign, then
one or more decimal digits, and the value must fit `int`; `none` is a non-nil error. -/
def Atoi (s : String) : Option Int :=
  match s.data with
  | [] => none
  | ch :: cs =>
    let neg := decide (ch = '-')
    let ds := if ch = '-' ∨ ch = '+' then cs else ch :: cs
    match ds with
    | [] => none
    | _ :: _ =>
      match atoiDigits ds 0 with
      | none => none
      | some n =>
        let v : Int := if neg then -(n : Int) else (n : Int)
        if -(2 ^ 63 : Int) ≤ v ∧ v < (2 ^ 63 : Int) then some v else none

/-- Status codes of the fiber package. -/
abbrev StatusOK : Nat := 200
abbrev StatusCreated : Nat := 201
abbrev StatusNoContent : Nat := 204
abbrev StatusBadRequest : Nat := 400
abbrev StatusNotFound : Nat := 404

/-- What a response carries: nothing, one item (`c.JSON(item)`) or a sequence of items
(`c.JSON(items)`). -/
inductive Payload where
  | empty
  | item (i : Item)
  | items (l : List Item)
  deriving DecidableEq, Repr

/-- What a handler returns: `fiber.NewError(code, message)`, or `nil` after the response
with the given status and payload has been written to the context. -/
inductive Result where
  | error (code : Nat) (message : String)
  | sent (status : Nat) (body : Payload)
  deriving DecidableEq, Repr

/-- The order in which `for ... range` visits a map is not specified: the order the runtime
picks is driven by a choice sequence, each entry being placed at the position the next
choice names.  Every choice sequence gives an enumeration of the entries. -/
def rangeOrder {α : Type} : List Nat → List α → List α
  | _, [] => []
  | seed, a :: l =>
    let rest := rangeOrder seed.tail l
    rest.insertIdx (seed.headD 0 % (rest.length + 1)) a

/-! ## The handlers -/

/-- ListItems returns all items as JSON. -/
def ListItems (seed : List Nat) (st : Store) : Result × Store :=
  let items : List Item := []
  let items := (rangeOrder seed st.itemStore.entries).foldl (fun items kv => items ++ [kv.2]) items
  (Result.sent StatusOK (Payload.items items), st)

/-- GetItem returns a single item by ID. -/
def GetItem (c : Ctx) (st : Store) : Result × Store :=
  let idParam := c.Params "id"
  match Atoi idParam with
  | none => (Result.error StatusBadRequest "Invalid ID", st)
  | some id =>
    match st.itemStore.lookup id with
    | none => (Result.error StatusNotFound "Item Not Found", st)
    | some item => (Result.sent StatusOK (Payload.item item), st)

/-- CreateItem reads JSON from the request body, creates a new Item, and returns it. -/
def CreateItem (c : Ctx) (st : Store) : Result × Store :=
  match c.BodyParser Item.zero with
  | none => (Result.error StatusBadRequest "Invalid JSON", st)
  | some newItem =>
    if newItem.Name = "" then
      (Result.error StatusBadRequest "Name is required", st)
    else if newItem.Quantity < 0 then
      (Result.error StatusBadRequest "Quantity must be non-negative", st)
    else
      let newItem := { newItem with ID := st.nextItemID }
      let st := { st with nextItemID := st.nextItemID + 1 }
      let st := { st with itemStore := st.itemStore.insert newItem.ID newItem }
      (Result.sent StatusCreated (Payload.item newItem), st)

/-- UpdateItem updates an existing item partially (name and/or quantity). -/
def UpdateItem (c : Ctx) (st : Store) : Result × Store :=
  let idParam := c.Params "id"
  match Atoi idParam with
  | none => (Result.error StatusBadRequest "Invalid ID", st)
  | some id =>
    match c.BodyParser Item.zero with
    | none => (Result.error StatusBadRequest "Invalid JSON", st)
    | some payload =>
      match st.itemStore.lookup id with
      | none => (Result.error StatusNotFound "Item Not Found", st)
      | some existing =>
        let existing := if payload.Name ≠ "" then { existing with Name := payload.Name } else existing
        let existing :=
          if payload.Quantity ≥ 0 then { existing with Quantity := payload.Quantity } else existing
        let st := { st with itemStore := st.itemStore.insert id existing }
        (Result.sent StatusOK (Payload.item existing), st)

/-- DeleteItem removes an item by ID. -/
def DeleteItem (c : Ctx) (st : Store) : Result × Store :=
  let idParam := c.Params "id"
  match Atoi idParam with
  | none => (Result.error StatusBadRequest "Invalid ID", st)
  | some id =>
    match st.itemStore.lookup id with
    | none => (Result.error StatusNotFound "Item Not Found", st)
    | some _ =>
      let st := { st with itemStore := st.itemStore.erase id }
      (Result.sent StatusNoContent Payload.empty, st)

/-! ## Sequences of handler calls -/

/-- One request to an item route of `main.go`, named by the handler the route is bound to;
`list` carries the iteration order the runtime picks for the map. -/
inductive Call where
  | list (seed : List Nat)
  | get (c : Ctx)
  | create (c : Ctx)
  | update (c : Ctx)
  | delete (c : Ctx)
  deriving DecidableEq, Repr

/-- Dispatch of a request to its handler. -/
def Call.run : Call → Store → Result × Store
  | Call.list seed, st => ListItems seed st
  | Call.get c, st => GetItem c st
  | Call.create c, st => CreateItem c st
  | Call.update c, st => UpdateItem c st
  | Call.delete c, st => DeleteItem c st

/-- The handlers run one after the other on the store, each on the store its predecessor
left; the log pairs every call with its result. -/
def runCalls : List Call → Store → List (Call × Result) × Store
  | [], st => ([], st)
  | call :: rest, st =>
    let (r, st1) := call.run st
    let (log, st2) := runCalls rest st1
    ((call, r) :: log, st2)

/-- The ID a log entry assigned: the ID of the item a successful CreateItem returned. -/
def issuedID : Call × Result → Option Int
  | (Call.create _, Result.sent _ (Payload.item it)) => some it.ID
  | _ => none

/-- The IDs assigned along a log, in call order. -/
def issuedIDs (log : List (Call × Result)) : List Int :=
  log.filterMap issuedID

/-- The ID a log entry removed: the ID a successful DeleteItem was called on. -/
def deletedID : Call × Result → Option Int
  | (Call.delete c, Result.sent _ _) => Atoi (c.Params "id")
  | _ => none

/-- The IDs removed along a log, in call order. -/
def deletedIDs (log : List (Call × Result)) : List Int :=
  log.filterMap deletedID

/-- The HTTP methods the item routes of `main.go` are bound to. -/
inductive Method where
  | GET
  | POST
  | PUT
  | DELETE
  deriving DecidableEq, Repr

/-- A path segment as the router sees it: trailing slashes are cut off before a path is
matched (fiber's default, non-strict routing). -/
def trimSlashes (seg : String) : String :=
  String.mk (seg.data.reverse.dropWhile (fun ch => ch = '/')).reverse

/-- The item routes of `main.go`: a request names a method, what follows `/items/` in its
path (`none` for the path `/items`) and a body.  With trailing slashes cut off, an empty
rest is the path `/items`: `GET` is ListItems and `POST` is CreateItem.  A rest of one
segment is the route parameter `id`: `GET`, `PUT`, `DELETE` are GetItem, UpdateItem,
DeleteItem.  A rest of several segments and the other methods match no item route. -/
def route (seed : List Nat) (method : Method) (rest : Option String) (body : Option Fields) :
    Option Call :=
  let seg := trimSlashes (rest.getD "")
  if seg = "" then
    match method with
    | Method.GET => some (Call.list seed)
    | Method.POST => some (Call.create ⟨"", body⟩)
    | _ => none
  else if '/' ∈ seg.data then none
  else
    match method with
    | Method.GET => some (Call.get ⟨seg, body⟩)
    | Method.PUT => some (Call.update ⟨seg, body⟩)
    | Method.DELETE => some (Call.delete ⟨seg, body⟩)
    | Method.POST => none

/-- Well-formed stores: the counter is at least 1 and every entry `(k, item)` has
`item.ID = k`, `1 ≤ k < nextItemID`, a non-empty name and a quantity of at least 0. -/
def Store.WellFormed (st : Store) : Prop :=
  1 ≤ st.nextItemID ∧
  ∀ (k : Int) (it : Item), st.itemStore.lookup k = some it →
    it.ID = k ∧ 1 ≤ k ∧ k < st.nextItemID ∧ it.Name ≠ "" ∧ 0 ≤ it.Quantity

/-! ## The handlers with the mutex

The same five handlers, statement by statement, on a memory that holds `storeMu` as a
held/free flag next to the two variables, and that records every access to `itemStore` and
`nextItemID` together with the flag at the time of the access. -/

/-- An access to one of the package-level variables. -/
inductive Access where
  | readItemStore
  | writeItemStore
  | readNextItemID
  | writeNextItemID
  deriving DecidableEq, Repr

/-- The package-level variables `itemStore`, `nextItemID` and `storeMu` (`true` is held),
and the accesses made so far, each with the state of the mutex when it was made. -/
structure Mem where
  store : Store
  storeMu : Bool
  accesses : List (Access × Bool)

/-- The call `storeMu.Lock()`: takes the mutex when it is free; when it is held the caller
blocks, so the call does not return (`none`). -/
def Lock : StateT Mem Option Unit :=
  fun m => if m.storeMu then none else some ((), { m with storeMu := true })

/-- The call `storeMu.Unlock()`: frees the held mutex; unlocking a free mutex is a fatal
error of the runtime (`none`). -/
def Unlock : StateT Mem Option Unit :=
  fun m => if m.storeMu then some ((), { m with storeMu := false }) else none

/-- Records an access with the state of the mutex at that time. -/
def access (a : Access) : StateT Mem Option Unit :=
  fun m => some ((), { m with accesses := m.accesses ++ [(a, m.storeMu)] })

/-- The read `itemStore[id]`. -/
def loadItem (id : Int) : StateT Mem Option (Option Item) := do
  access Access.readItemStore
  return (← get).store.itemStore.lookup id

/-- The write `itemStore[id] = item`. -/
def storeItem (id : Int) (item : Item) : StateT Mem Option Unit := do
  access Access.writeItemStore
  modify fun m => { m with store := { m.store with itemStore := m.store.itemStore.insert id item } }

/-- The statement `delete(itemStore, id)`. -/
def deleteItem (id : Int) : StateT Mem Option Unit := do
  access Access.writeItemStore
  modify fun m => { m with store := { m.store with itemStore := m.store.itemStore.erase id } }

/-- The read `len(itemStore)`. -/
def lenItemStore : StateT Mem Option Nat := do
  access Access.readItemStore
  return (← get).store.itemStore.entries.length

/-- The loop header `range itemStore`: the entries in the order the runtime picks. -/
def rangeItemStore (seed : List Nat) : StateT Mem Option (List (Sigma fun _ : Int => Item)) := do
  access Access.readItemStore
  return rangeOrder seed (← get).store.itemStore.entries

/-- A read of `nextItemID`. -/
def loadNextItemID : StateT Mem Option Int := do
  access Access.readNextItemID
  return (← get).store.nextItemID

/-- A write of `nextItemID`. -/
def storeNextItemID (v : Int) : StateT Mem Option Unit := do
  access Access.writeNextItemID
  modify fun m => { m with store := { m.store with nextItemID := v } }

/-- The statement `defer d` followed by the rest of the function body: the body runs to its
return, then `d` runs, then the function returns what the body returned. -/
def deferred {α : Type} (d : StateT Mem Option Unit) (body : StateT Mem Option α) :
    StateT Mem Option α := do
  let r ← body
  d
  return r

/-- ListItems, with the mutex. -/
def ListItemsMu (seed : List Nat) : StateT Mem Option Result := do
  Lock
  deferred Unlock do
    let _capacity ← lenItemStore
    let items : List Item := []
    let items := (← rangeItemStore seed).foldl (fun items kv => items ++ [kv.2]) items
    return Result.sent StatusOK (Payload.items items)

/-- GetItem, with the mutex. -/
def GetItemMu (c : Ctx) : StateT Mem Option Result := do
  let idParam := c.Params "id"
  match Atoi idParam with
  | none => return Result.error StatusBadRequest "Invalid ID"
  | some id =>
    Lock
    deferred Unlock do
      match ← loadItem id with
      | none => return Result.error StatusNotFound "Item Not Found"
      | some item => return Result.sent StatusOK (Payload.item item)

/-- CreateItem, with the mutex. -/
def CreateItemMu (c : Ctx) : StateT Mem Option Result := do
  match c.BodyParser Item.zero with
  | none => return Result.error StatusBadRequest "Invalid JSON"
  | some newItem =>
    if newItem.Name = "" then
      return Result.error StatusBadRequest "Name is required"
    else if newItem.Quantity < 0 then
      return Result.error StatusBadRequest "Quantity must be non-negative"
    else
      Lock
      deferred Unlock do
        let newItem := { newItem with ID := ← loadNextItemID }
        storeNextItemID ((← loadNextItemID) + 1)
        storeItem newItem.ID newItem
        return Result.sent StatusCreated (Payload.item newItem)

/-- UpdateItem, with the mutex. -/
def UpdateItemMu (c : Ctx) : StateT Mem Option Result := do
  let idParam := c.Params "id"
  match Atoi idParam with
  | none => return Result.error StatusBadRequest "Invalid ID"
  | some id =>
    match c.BodyParser Item.zero with
    | none => return Result.error StatusBadRequest "Invalid JSON"
    | some payload =>
      Lock
      deferred Unlock do
        match ← loadItem id with
        | none => return Result.error StatusNotFound "Item Not Found"
        | some existing =>
          let existing :=
            if payload.Name ≠ "" then { existing with Name := payload.Name } else existing
          let existing :=
            if payload.Quantity ≥ 0 then { existing with Quantity := payload.Quantity }
            else existing
          storeItem id existing
          return Result.sent StatusOK (Payload.item existing)

/-- DeleteItem, with the mutex. -/
def DeleteItemMu (c : Ctx) : StateT Mem Option Result := do
  let idParam := c.Params "id"
  match Atoi idParam with
  | none => return Result.error StatusBadRequest "Invalid ID"
  | some id =>
    Lock
    deferred Unlock do
      match ← loadItem id with
      | none => return Result.error StatusNotFound "Item Not Found"
      | some _ =>
        deleteItem id
        return Result.sent StatusNoContent Payload.empty

/-- Dispatch of a request to its handler, with the mutex. -/
def Call.runMu : Call → StateT Mem Option Result
  | Call.list seed => ListItemsMu seed
  | Call.get c => GetItemMu c
  | Call.create c => CreateItemMu c
  | Call.update c => UpdateItemMu c
  | Call.delete c => DeleteItemMu c

/-! ## Concurrent creates

CreateItem as a goroutine that takes one step at a time on the shared memory, so that the
steps of several goroutines can be interleaved.  A step is a statement of `CreateItemMu`:
the accesses to the shared variables are the same calls on `Mem`, and `nextItemID++` is a
read followed by a write. -/

/-- The statement of CreateItem a goroutine is about to run. -/
inductive CreatePC where
  | entry
  | lock
  | assignID
  | incrLoad
  | incrStore
  | insert
  | unlock
  | done
  deriving DecidableEq, Repr

/-- A goroutine running CreateItem: its request, the statement it is at, its local variable
`newItem`, the value it read for `nextItemID++`, and its result once it has returned. -/
structure Goroutine where
  c : Ctx
  pc : CreatePC
  newItem : Item
  tmp : Int
  result : Option Result

/-- A goroutine at the start of CreateItem. -/
def Goroutine.start (c : Ctx) : Goroutine :=
  { c := c, pc := CreatePC.entry, newItem := Item.zero, tmp := 0, result := none }

/-- One step of a goroutine on the shared memory; `none` when it cannot step: it has
returned, or it waits at `Lock` for a held mutex.
`entry` is the decoding and validation of the body, which touch no shared variable;
`lock` is `storeMu.Lock()`; `assignID` is `newItem.ID = nextItemID`; `incrLoad` and
`incrStore` are the read and the write of `nextItemID++`; `insert` is
`itemStore[newItem.ID] = newItem`; `unlock` is the return with the deferred `Unlock`. -/
def Goroutine.step (g : Goroutine) (m : Mem) : Option (Goroutine × Mem) :=
  match g.pc with
  | CreatePC.entry =>
    match g.c.BodyParser Item.zero with
    | none =>
      some ({ g with pc := CreatePC.done,
                     result := some (Result.error StatusBadRequest "Invalid JSON") }, m)
    | some newItem =>
      if newItem.Name = "" then
        some ({ g with pc := CreatePC.done,
                       result := some (Result.error StatusBadRequest "Name is required") }, m)
      else if newItem.Quantity < 0 then
        some ({ g with pc := CreatePC.done,
                       result := some (Result.error StatusBadRequest
                         "Quantity must be non-negative") }, m)
      else
        some ({ g with pc := CreatePC.lock, newItem := newItem }, m)
  | CreatePC.lock =>
    match Lock.run m with
    | none => none
    | some (_, m1) => some ({ g with pc := CreatePC.assignID }, m1)
  | CreatePC.assignID =>
    match loadNextItemID.run m with
    | none => none
    | some (v, m1) =>
      some ({ g with pc := CreatePC.incrLoad, newItem := { g.newItem with ID := v } }, m1)
  | CreatePC.incrLoad =>
    match loadNextItemID.run m with
    | none => none
    | some (v, m1) => some ({ g with pc := CreatePC.incrStore, tmp := v }, m1)
  | CreatePC.incrStore =>
    match (storeNextItemID (g.tmp + 1)).run m with
    | none => none
    | some (_, m1) => some ({ g with pc := CreatePC.insert }, m1)
  | CreatePC.insert =>
    match (storeItem g.newItem.ID g.newItem).run m with
    | none => none
    | some (_, m1) => some ({ g with pc := CreatePC.unlock }, m1)
  | CreatePC.unlock =>
    match Unlock.run m with
    | none => none
    | some (_, m1) =>
      some ({ g with pc := CreatePC.done,
                     result := some (Result.sent StatusCreated (Payload.item g.newItem)) }, m1)
  | CreatePC.done => none

/-- The goroutines of the concurrent requests and the memory they share. -/
structure Config where
  gs : List Goroutine
  mem : Mem

/-- The scheduler lets goroutine `i` take its next step; a goroutine that cannot step, and
an index that names no goroutine, leave the configuration as it is. -/
def Config.tick (cfg : Config) (i : Nat) : Config :=
  match cfg.gs[i]? with
  | none => cfg
  | some g =>
    match g.step cfg.mem with
    | none => cfg
    | some (g1, m1) => { gs := cfg.gs.set i g1, mem := m1 }

/-- An interleaving: the goroutines step in the order the schedule names them. -/
def runSchedule (sched : List Nat) (cfg : Config) : Config :=
  sched.foldl Config.tick cfg

/-- One goroutine per request, all at the start of CreateItem, on the fresh store with the
mutex free. -/
def Config.start (cs : List Ctx) : Config :=
  { gs := cs.map Goroutine.start, mem := { store := Store.fresh, storeMu := false, accesses := [] } }

/-- Every goroutine has returned. -/
def Config.allDone (cfg : Config) : Prop :=
  ∀ g ∈ cfg.gs, g.pc = CreatePC.done

/-- The statements between `Lock` and `Unlock`. -/
def CreatePC.critical : CreatePC → Bool
  | CreatePC.assignID => true
  | CreatePC.incrLoad => true
  | CreatePC.incrStore => true
  | CreatePC.insert => true
  | CreatePC.unlock => true
  | _ => false

/-- The number of goroutines that have returned. -/
def doneCount (gs : List Goroutine) : Nat :=
  gs.countP (fun g => decide (g.pc = CreatePC.done))

/-- The steps a goroutine has left when every check of `entry` passes. -/
def CreatePC.remaining : CreatePC → Nat
  | CreatePC.entry => 7
  | CreatePC.lock => 6
  | CreatePC.assignID => 5
  | CreatePC.incrLoad => 4
  | CreatePC.incrStore => 3
  | CreatePC.insert => 2
  | CreatePC.unlock => 1
  | CreatePC.done => 0

/-- The steps the goroutines have left. -/
def remainingSteps (gs : List Goroutine) : Nat :=
  (gs.map (fun g => g.pc.remaining)).sum

/-- The keys `d, d - 1, ..., 1`, each paired with itself. -/
def idsDown : Nat → List (Int × Int)
  | 0 => []
  | d + 1 => ((d : Int) + 1, (d : Int) + 1) :: idsDown d

/-- The entries of the map, each as its key and the ID of its item. -/
def Store.keyIDs (st : Store) : List (Int × Int) :=
  st.itemStore.entries.map (fun e => (e.1, e.2.ID))

/-- What the goroutine that holds the mutex has done so far, when `d` goroutines have
returned before it. -/
def holderOK (d : Nat) (g : Goroutine) (st : Store) : Prop :=
  match g.pc with
  | CreatePC.assignID => st.nextItemID = d + 1 ∧ st.keyIDs = idsDown d
  | CreatePC.incrLoad => g.newItem.ID = d + 1 ∧ st.nextItemID = d + 1 ∧ st.keyIDs = idsDown d
  | CreatePC.incrStore =>
    g.newItem.ID = d + 1 ∧ g.tmp = d + 1 ∧ st.nextItemID = d + 1 ∧ st.keyIDs = idsDown d
  | CreatePC.insert => g.newItem.ID = d + 1 ∧ st.nextItemID = d + 2 ∧ st.keyIDs = idsDown d
  | CreatePC.unlock => st.nextItemID = d + 2 ∧ st.keyIDs = idsDown (d + 1)
  | _ => False

/-- The invariant of the interleavings of creates with valid bodies: a free mutex means no
goroutine is between `Lock` and `Unlock`, and `d` returned goroutines have left the keys
`1..d` and the counter `d + 1`; a held mutex means exactly one goroutine is between `Lock`
and `Unlock`; every access was made under the mutex; a returned goroutine has answered
201. -/
structure Config.Inv (cfg : Config) : Prop where
  valid : ∀ g ∈ cfg.gs, ∃ p, g.c.BodyParser Item.zero = some p ∧ p.Name ≠ "" ∧ 0 ≤ p.Quantity
  free : cfg.mem.storeMu = false →
    cfg.gs.filter (fun g => g.pc.critical) = [] ∧
      cfg.mem.store.nextItemID = doneCount cfg.gs + 1 ∧
      cfg.mem.store.keyIDs = idsDown (doneCount cfg.gs)
  held : cfg.mem.storeMu = true →
    ∃ g, cfg.gs.filter (fun g => g.pc.critical) = [g] ∧
      holderOK (doneCount cfg.gs) g cfg.mem.store
  guarded : ∀ e ∈ cfg.mem.accesses, e.2 = true
  answered : ∀ g ∈ cfg.gs, g.pc = CreatePC.done →
    ∃ it, g.result = some (Result.sent StatusCreated (Payload.item it))

/-! ## Single handler calls -/

theorem CreateItem_valid (c : Ctx) (st : Store) (p : Item)
    (hp : c.BodyParser Item.zero = some p) (hn : p.Name ≠ "") (hq : 0 ≤ p.Quantity) :
    CreateItem c st =
      (Result.sent StatusCreated (Payload.item { p with ID := st.nextItemID }),
       { itemStore := st.itemStore.insert st.nextItemID { p with ID := st.nextItemID },
         nextItemID := st.nextItemID + 1 }) := by
  have hq2 : ¬ p.Quantity < 0 := not_lt.mpr hq
  simp [CreateItem, hp, hn, hq2]

theorem runCalls_cons (call : Call) (rest : List Call) (st : Store) :
    runCalls (call :: rest) st =
      ((call, (call.run st).1) :: (runCalls rest (call.run st).2).1,
       (runCalls rest (call.run st).2).2) := rfl

theorem runCalls_length (calls : List Call) (st : Store) :
    (runCalls calls st).1.length = calls.length := by
  induction calls generalizing st with
  | nil => rfl
  | cons call rest ih => simp [runCalls_cons, ih]

/-- Creates only, from any store: the call at position `i` is answered with status 201 and
the candidate under the ID `nextItemID + i`. -/
theorem creates_from (cs : List Ctx) (st : Store)
    (hvalid : ∀ c ∈ cs, ∃ p, c.BodyParser Item.zero = some p ∧ p.Name ≠ "" ∧ 0 ≤ p.Quantity)
    (i : Nat) (hi : i < cs.length) :
    ∃ p, (cs.get ⟨i, hi⟩).BodyParser Item.zero = some p ∧
      (runCalls (cs.map Call.create) st).1[i]? =
        some (Call.create (cs.get ⟨i, hi⟩),
          Result.sent StatusCreated (Payload.item { p with ID := st.nextItemID + i })) := by
  induction cs generalizing st i with
  | nil => simp at hi
  | cons c rest ih =>
    obtain ⟨p, hp, hn, hq⟩ := hvalid c (List.mem_cons_self _ _)
    have hrest : ∀ c ∈ rest, ∃ p, c.BodyParser Item.zero = some p ∧ p.Name ≠ "" ∧ 0 ≤ p.Quantity :=
      fun c hc => hvalid c (List.mem_cons_of_mem _ hc)
    cases i with
    | zero =>
      refine ⟨p, hp, ?_⟩
      simp [runCalls_cons, Call.run, CreateItem_valid c st p hp hn hq]
    | succ j =>
      have hj : j < rest.length := by simpa using hi
      obtain ⟨q, hq1, hq2⟩ := ih (Call.run (Call.create c) st).2 hrest j hj
      refine ⟨q, by simpa using hq1, ?_⟩
      simp only [List.map_cons, runCalls_cons, List.getElem?_cons_succ, hq2]
      simp [Call.run, CreateItem_valid c st p hp hn hq]
      omega

/-- What a call does to the counter: a successful CreateItem assigns the ID `nextItemID`
and adds one to the counter; every other call, and every failing call, leaves it alone. -/
theorem run_nextItemID (call : Call) (st : Store) :
    (issuedID (call, (call.run st).1) = some st.nextItemID ∧
        (call.run st).2.nextItemID = st.nextItemID + 1) ∨
    (issuedID (call, (call.run st).1) = none ∧
        (call.run st).2.nextItemID = st.nextItemID) := by
  cases call with
  | list seed => right; simp [Call.run, ListItems, issuedID]
  | get c =>
    right
    simp only [Call.run, GetItem]
    split
    · simp [issuedID]
    · split <;> simp [issuedID]
  | create c =>
    simp only [Call.run, CreateItem]
    split
    · right; simp [issuedID]
    · split
      · right; simp [issuedID]
      · split
        · right; simp [issuedID]
        · left; simp [issuedID]
  | update c =>
    right
    simp only [Call.run, UpdateItem]
    split
    · simp [issuedID]
    · split
      · simp [issuedID]
      · split <;> simp [issuedID]
  | delete c =>
    right
    simp only [Call.run, DeleteItem]
    split
    · simp [issuedID]
    · split <;> simp [issuedID]

theorem run_nextItemID_mono (call : Call) (st : Store) :
    st.nextItemID ≤ (call.run st).2.nextItemID := by
  rcases run_nextItemID call st with ⟨_, h⟩ | ⟨_, h⟩ <;> omega

theorem runCalls_nextItemID_mono (calls : List Call) (st : Store) :
    st.nextItemID ≤ (runCalls calls st).2.nextItemID := by
  induction calls generalizing st with
  | nil => exact le_refl _
  | cons call rest ih =>
    rw [runCalls_cons]
    exact le_trans (run_nextItemID_mono call st) (ih _)

/-- The counter after a run exceeds its value before by at most the number of calls. -/
theorem nextItemID_le_calls (calls : List Call) (st : Store) :
    (runCalls calls st).2.nextItemID ≤ st.nextItemID + calls.length := by
  induction calls generalizing st with
  | nil => simp [runCalls]
  | cons call rest ih =>
    rw [runCalls_cons]
    have h1 := ih (call.run st).2
    have h2 : (call.run st).2.nextItemID ≤ st.nextItemID + 1 := by
      rcases run_nextItemID call st with ⟨_, h⟩ | ⟨_, h⟩ <;> omega
    simp only [List.length_cons, Nat.cast_add, Nat.cast_one]
    omega

theorem issuedIDs_cons (call : Call) (rest : List Call) (st : Store) :
    issuedIDs (runCalls (call :: rest) st).1 =
      (issuedID (call, (call.run st).1)).toList ++
        issuedIDs (runCalls rest (call.run st).2).1 := by
  rw [runCalls_cons]
  simp only [issuedIDs, List.filterMap_cons]
  cases issuedID (call, (call.run st).1) <;> simp

/-- Every ID a run assigns is at least the value the counter had at the start of the run
and below the value it has at the end. -/
theorem issuedIDs_bounds (calls : List Call) (st : Store) :
    ∀ k ∈ issuedIDs (runCalls calls st).1,
      st.nextItemID ≤ k ∧ k < (runCalls calls st).2.nextItemID := by
  induction calls generalizing st with
  | nil => simp [runCalls, issuedIDs]
  | cons call rest ih =>
    intro k hk
    rw [issuedIDs_cons] at hk
    have hmono := runCalls_nextItemID_mono rest (call.run st).2
    rw [runCalls_cons]
    rcases List.mem_append.mp hk with h | h
    · rcases run_nextItemID call st with ⟨h1, h2⟩ | ⟨h1, _⟩
      · rw [h1] at h
        simp at h
        subst h
        constructor
        · exact le_refl _
        · show st.nextItemID < (runCalls rest (call.run st).2).2.nextItemID
          omega
      · rw [h1] at h
        simp at h
    · have := ih (call.run st).2 k h
      have := run_nextItemID_mono call st
      constructor
      · omega
      · show k < (runCalls rest (call.run st).2).2.nextItemID
        omega

/-- The IDs a run assigns are strictly increasing in call order, from any store. -/
theorem issuedIDs_increasing (calls : List Call) (st : Store) :
    (issuedIDs (runCalls calls st).1).Pairwise (· < ·) := by
  induction calls generalizing st with
  | nil => simp [runCalls, issuedIDs]
  | cons call rest ih =>
    rw [issuedIDs_cons]
    rcases run_nextItemID call st with ⟨h1, h2⟩ | ⟨h1, _⟩
    · rw [h1]
      simp only [Option.toList_some, List.singleton_append, List.pairwise_cons]
      refine ⟨fun k hk => ?_, ih _⟩
      have := (issuedIDs_bounds rest (call.run st).2 k hk).1
      omega
    · rw [h1]
      simpa using ih _

/-- Creates only, from any store: the IDs assigned are `nextItemID`, `nextItemID + 1`, ... -/
theorem creates_issuedIDs (cs : List Ctx) (st : Store)
    (hvalid : ∀ c ∈ cs, ∃ p, c.BodyParser Item.zero = some p ∧ p.Name ≠ "" ∧ 0 ≤ p.Quantity) :
    issuedIDs (runCalls (cs.map Call.create) st).1 =
      (List.range cs.length).map (fun (i : Nat) => st.nextItemID + (i : Int)) := by
  induction cs generalizing st with
  | nil => simp [runCalls, issuedIDs]
  | cons c rest ih =>
    obtain ⟨p, hp, hn, hq⟩ := hvalid c (List.mem_cons_self _ _)
    have hrest : ∀ c ∈ rest, ∃ p, c.BodyParser Item.zero = some p ∧ p.Name ≠ "" ∧ 0 ≤ p.Quantity :=
      fun c hc => hvalid c (List.mem_cons_of_mem _ hc)
    rw [List.map_cons, issuedIDs_cons, ih _ hrest, List.length_cons, List.range_succ_eq_map]
    simp only [Call.run, CreateItem_valid c st p hp hn hq, issuedID, Option.toList_some,
      List.singleton_append, List.map_cons, List.map_map, Nat.cast_zero, add_zero]
    congr 1
    apply List.map_congr_left
    intro i _
    simp only [Function.comp_apply, Nat.cast_succ]
    omega

/-- C1: on a fresh store, a sequence of N CreateItem calls with valid bodies (the body
decodes, the name is non-empty, the quantity is at least 0) answers the call at position i
(counted from 0) with status 201 and the candidate under the ID i + 1; the IDs assigned
are 1, 2, ..., N in call order, strictly increasing and distinct. -/
theorem C1_create_ids_from_one (cs : List Ctx)
    (hvalid : ∀ c ∈ cs, ∃ p, c.BodyParser Item.zero = some p ∧ p.Name ≠ "" ∧ 0 ≤ p.Quantity) :
    (∀ (i : Nat) (hi : i < cs.length),
      ∃ p, (cs.get ⟨i, hi⟩).BodyParser Item.zero = some p ∧
        (runCalls (cs.map Call.create) Store.fresh).1[i]? =
          some (Call.create (cs.get ⟨i, hi⟩),
            Result.sent StatusCreated (Payload.item { p with ID := (i : Int) + 1 }))) ∧
    issuedIDs (runCalls (cs.map Call.create) Store.fresh).1 =
      (List.range cs.length).map (fun (i : Nat) => (i : Int) + 1) ∧
    (issuedIDs (runCalls (cs.map Call.create) Store.fresh).1).Pairwise (· < ·) ∧
    (issuedIDs (runCalls (cs.map Call.create) Store.fresh).1).Nodup := by
  have hinc := issuedIDs_increasing (cs.map Call.create) Store.fresh
  refine ⟨fun i hi => ?_, ?_, hinc, hinc.imp (fun h => ne_of_lt h)⟩
  · obtain ⟨p, hp, hlog⟩ := creates_from cs Store.fresh hvalid i hi
    refine ⟨p, hp, ?_⟩
    rw [hlog]
    simp [Store.fresh, add_comm]
  · rw [creates_issuedIDs cs Store.fresh hvalid]
    apply List.map_congr_left
    intro i _
    simp [Store.fresh, add_comm]

/-- C1 at three creates: `pen`, `ink` and `cap` get the IDs 1, 2 and 3. -/
theorem C1_create_ids_from_one_witness :
    issuedIDs (runCalls
      ([⟨"", some ⟨none, some (.str "pen"), some (.int 10)⟩⟩, ⟨"", some ⟨some (.int 7), some (.str "ink"), some (.int 0)⟩⟩,
        ⟨"", some ⟨none, some (.str "cap"), none⟩⟩].map Call.create) Store.fresh).1 = [1, 2, 3] :=
  (C1_create_ids_from_one
    [⟨"", some ⟨none, some (.str "pen"), some (.int 10)⟩⟩, ⟨"", some ⟨some (.int 7), some (.str "ink"), some (.int 0)⟩⟩,
      ⟨"", some ⟨none, some (.str "cap"), none⟩⟩]
    (by
      intro c hc
      simp only [List.mem_cons, List.mem_singleton, List.not_mem_nil, or_false] at hc
      rcases hc with rfl | rfl | rfl <;> exact ⟨_, rfl, by decide, by decide⟩)).2.1

/-- C2: IDs are never reused.  In every sequence of handler calls on a fresh store, failing
calls included, the IDs the successful CreateItem calls assign are strictly increasing in
call order; from any store, a create, then a delete of the ID it returned, then a create
again returns a different ID; and a call changes nextItemID only when it is a successful
CreateItem, which assigns the old value and adds exactly one. -/
theorem C2_ids_never_reused :
    (∀ calls : List Call, (issuedIDs (runCalls calls Store.fresh).1).Pairwise (· < ·)) ∧
    (∀ (st : Store) (c1 d c2 : Ctx) (a b : Item) (s1 s2 : Nat),
      (CreateItem c1 st).1 = Result.sent s1 (Payload.item a) →
      Atoi (d.Params "id") = some a.ID →
      (CreateItem c2 (DeleteItem d (CreateItem c1 st).2).2).1 = Result.sent s2 (Payload.item b) →
      (DeleteItem d (CreateItem c1 st).2).1 = Result.sent StatusNoContent Payload.empty ∧
        b.ID ≠ a.ID) ∧
    (∀ (call : Call) (st : Store),
      (call.run st).2.nextItemID =
        if (issuedID (call, (call.run st).1)).isSome then st.nextItemID + 1
        else st.nextItemID) ∧
    (∀ (call : Call) (st : Store),
      (issuedID (call, (call.run st).1)).isSome ↔
        ∃ c it, call = Call.create c ∧
          (CreateItem c st).1 = Result.sent StatusCreated (Payload.item it)) := by
  refine ⟨fun calls => issuedIDs_increasing calls Store.fresh, ?_, ?_, ?_⟩
  · intro st c1 d c2 a b s1 s2 h1 hd h2
    have k1 := run_nextItemID (Call.create c1) st
    have k2 := run_nextItemID (Call.delete d) (CreateItem c1 st).2
    have k3 := run_nextItemID (Call.create c2) (DeleteItem d (CreateItem c1 st).2).2
    simp only [Call.run, h1, h2, issuedID] at k1 k2 k3
    simp only [Option.some.injEq, reduceCtorEq, false_and, or_false] at k1 k3
    refine ⟨?_, ?_⟩
    · have hmem : (CreateItem c1 st).2.itemStore.lookup a.ID = some a := by
        revert h1
        simp only [CreateItem]
        split
        · simp
        · split
          · simp
          · split
            · simp
            · intro h
              simp only [Result.sent.injEq, Payload.item.injEq] at h
              rw [← h.2]
              exact AList.lookup_insert _
      simp [DeleteItem, hd, hmem]
    · have k2n : (DeleteItem d (CreateItem c1 st).2).2.nextItemID
          = (CreateItem c1 st).2.nextItemID := by
        rcases k2 with ⟨_, h⟩ | ⟨_, h⟩
        · simp [DeleteItem, hd] at h ⊢
          split <;> rfl
        · exact h
      omega
  · intro call st
    rcases run_nextItemID call st with ⟨h1, h2⟩ | ⟨h1, h2⟩ <;> simp [h1, h2]
  · intro call st
    cases call with
    | list seed => simp [Call.run, ListItems, issuedID]
    | get c =>
      simp only [Call.run, GetItem]
      split
      · simp [issuedID]
      · split <;> simp [issuedID]
    | create c =>
      simp only [Call.run]
      cases h : c.BodyParser Item.zero with
      | none => simp [CreateItem, h, issuedID]
      | some p =>
        by_cases hn : p.Name = ""
        · simp [CreateItem, h, hn, issuedID]
        · by_cases hq : p.Quantity < 0 <;> simp [CreateItem, h, hn, hq, issuedID]
    | update c =>
      simp only [Call.run, UpdateItem]
      split
      · simp [issuedID]
      · split
        · simp [issuedID]
        · split <;> simp [issuedID]
    | delete c =>
      simp only [Call.run, DeleteItem]
      split
      · simp [issuedID]
      · split <;> simp [issuedID]

/-- C2 at a fresh store: create `pen` (ID 1), delete ID 1, create `ink`: the delete
succeeds and the second create returns ID 2, not 1. -/
theorem C2_ids_never_reused_witness :
    (DeleteItem ⟨"1", none⟩
        (CreateItem ⟨"", some ⟨none, some (.str "pen"), some (.int 10)⟩⟩ Store.fresh).2).1 =
      Result.sent StatusNoContent Payload.empty ∧
    (⟨2, "ink", 0⟩ : Item).ID ≠ (⟨1, "pen", 10⟩ : Item).ID :=
  C2_ids_never_reused.2.1 Store.fresh ⟨"", some ⟨none, some (.str "pen"), some (.int 10)⟩⟩ ⟨"1", none⟩
    ⟨"", some ⟨none, some (.str "ink"), some (.int 0)⟩⟩ ⟨1, "pen", 10⟩ ⟨2, "ink", 0⟩ 201 201
    (by decide) (by decide) (by decide)

/-- C3: merge update.  When id `i` maps to the item `(i, a, q)` and the body decodes to a
payload with name `n` and quantity `k`, UpdateItem answers with status 200 and the item
`(i, n if n is non-empty else a, k if k ≥ 0 else q)`; the store after the call maps `i` to
that item, every other key as before, and nextItemID is unchanged. -/
theorem C3_merge_update (st : Store) (c : Ctx) (i : Int) (a : String) (q : Int)
    (payload : Item)
    (hid : Atoi (c.Params "id") = some i)
    (hstored : st.itemStore.lookup i = some ⟨i, a, q⟩)
    (hbody : c.BodyParser Item.zero = some payload) :
    (UpdateItem c st).1 =
      Result.sent StatusOK (Payload.item
        ⟨i, if payload.Name ≠ "" then payload.Name else a,
            if payload.Quantity ≥ 0 then payload.Quantity else q⟩) ∧
    (UpdateItem c st).2 =
      Store.mk (st.itemStore.insert i
        ⟨i, if payload.Name ≠ "" then payload.Name else a,
            if payload.Quantity ≥ 0 then payload.Quantity else q⟩) st.nextItemID ∧
    (UpdateItem c st).2.itemStore.lookup i =
      some ⟨i, if payload.Name ≠ "" then payload.Name else a,
              if payload.Quantity ≥ 0 then payload.Quantity else q⟩ ∧
    (∀ k, k ≠ i → (UpdateItem c st).2.itemStore.lookup k = st.itemStore.lookup k) ∧
    (UpdateItem c st).2.nextItemID = st.nextItemID := by
  have hU : UpdateItem c st =
      (Result.sent StatusOK (Payload.item
        ⟨i, if payload.Name ≠ "" then payload.Name else a,
            if payload.Quantity ≥ 0 then payload.Quantity else q⟩),
       Store.mk (st.itemStore.insert i
        ⟨i, if payload.Name ≠ "" then payload.Name else a,
            if payload.Quantity ≥ 0 then payload.Quantity else q⟩) st.nextItemID) := by
    simp only [UpdateItem, hid, hbody, hstored]
    by_cases hn : payload.Name = "" <;> by_cases hq : payload.Quantity ≥ 0 <;> simp [hn, hq]
  rw [hU]
  refine ⟨rfl, rfl, AList.lookup_insert _, fun k hk => AList.lookup_insert_ne hk, rfl⟩

/-- C3 on the store holding `(1, "a", 2)`: the payload `("", -1)` leaves the item as it
is, `("b", -1)` gives `(1, "b", 2)` and `("", 9)` gives `(1, "a", 9)`. -/
theorem C3_merge_update_witness :
    (UpdateItem ⟨"1", some ⟨none, some (.str ""), some (.int (-1))⟩⟩
        ⟨AList.singleton 1 ⟨1, "a", 2⟩, 2⟩).1 =
      Result.sent StatusOK (Payload.item ⟨1, "a", 2⟩) ∧
    (UpdateItem ⟨"1", some ⟨none, some (.str "b"), some (.int (-1))⟩⟩
        ⟨AList.singleton 1 ⟨1, "a", 2⟩, 2⟩).1 =
      Result.sent StatusOK (Payload.item ⟨1, "b", 2⟩) ∧
    (UpdateItem ⟨"1", some ⟨none, some (.str ""), some (.int 9)⟩⟩
        ⟨AList.singleton 1 ⟨1, "a", 2⟩, 2⟩).1 =
      Result.sent StatusOK (Payload.item ⟨1, "a", 9⟩) :=
  ⟨(C3_merge_update ⟨AList.singleton 1 ⟨1, "a", 2⟩, 2⟩
      ⟨"1", some ⟨none, some (.str ""), some (.int (-1))⟩⟩ 1 "a" 2 ⟨0, "", -1⟩
      (by decide) (by decide) (by decide)).1.trans (by decide),
   (C3_merge_update ⟨AList.singleton 1 ⟨1, "a", 2⟩, 2⟩
      ⟨"1", some ⟨none, some (.str "b"), some (.int (-1))⟩⟩ 1 "a" 2 ⟨0, "b", -1⟩
      (by decide) (by decide) (by decide)).1.trans (by decide),
   (C3_merge_update ⟨AList.singleton 1 ⟨1, "a", 2⟩, 2⟩
      ⟨"1", some ⟨none, some (.str ""), some (.int 9)⟩⟩ 1 "a" 2 ⟨0, "", 9⟩
      (by decide) (by decide) (by decide)).1.trans (by decide)⟩

/-- C4: on the store holding `(1, "a", 2)`, a PUT to `/items/1` whose body carries only the
name `"b"` decodes to the payload `(0, "b", 0)`; UpdateItem answers 200 with `(1, "b", 0)`
and stores it: the quantity 2 is overwritten by the zero value of the omitted field.  The
same on a fresh store: create `("a", 2)`, update ID 1 with the name `"b"` alone, get ID 1. -/
theorem C4_name_only_update_resets_quantity :
    (runCalls [Call.create ⟨"", some ⟨none, some (.str "a"), some (.int 2)⟩⟩,
        Call.update ⟨"1", some ⟨none, some (.str "b"), none⟩⟩,
        Call.get ⟨"1", none⟩] Store.fresh).1.map (fun e => e.2) =
      [Result.sent StatusCreated (Payload.item ⟨1, "a", 2⟩),
       Result.sent StatusOK (Payload.item ⟨1, "b", 0⟩),
       Result.sent StatusOK (Payload.item ⟨1, "b", 0⟩)] ∧
    Ctx.BodyParser ⟨"1", some ⟨none, some (.str "b"), none⟩⟩ Item.zero = some ⟨0, "b", 0⟩ ∧
    (UpdateItem ⟨"1", some ⟨none, some (.str "b"), none⟩⟩ ⟨AList.singleton 1 ⟨1, "a", 2⟩, 2⟩).1 =
      Result.sent StatusOK (Payload.item ⟨1, "b", 0⟩) ∧
    (UpdateItem ⟨"1", some ⟨none, some (.str "b"), none⟩⟩
        ⟨AList.singleton 1 ⟨1, "a", 2⟩, 2⟩).2.itemStore.lookup 1 = some ⟨1, "b", 0⟩ ∧
    (UpdateItem ⟨"1", some ⟨none, some (.str "b"), none⟩⟩ ⟨AList.singleton 1 ⟨1, "a", 2⟩, 2⟩).1 ≠
      Result.sent StatusOK (Payload.item ⟨1, "b", 2⟩) := by
  decide

/-- C5: create validation.  For a body that decodes to `p`, CreateItem succeeds exactly
when `p.Name` is non-empty and `p.Quantity ≥ 0`, and then with status 201; an empty name
fails with 400 "Name is required", whatever the quantity; a non-empty name with a negative
quantity fails with 400 "Quantity must be non-negative". -/
theorem C5_create_validation (st : Store) (c : Ctx) (p : Item)
    (hp : c.BodyParser Item.zero = some p) :
    ((∃ status body, (CreateItem c st).1 = Result.sent status body) ↔
      (p.Name ≠ "" ∧ 0 ≤ p.Quantity)) ∧
    (p.Name ≠ "" ∧ 0 ≤ p.Quantity →
      (CreateItem c st).1 =
        Result.sent StatusCreated (Payload.item { p with ID := st.nextItemID })) ∧
    (p.Name = "" →
      (CreateItem c st).1 = Result.error StatusBadRequest "Name is required") ∧
    (p.Name ≠ "" → p.Quantity < 0 →
      (CreateItem c st).1 = Result.error StatusBadRequest "Quantity must be non-negative") := by
  by_cases hn : p.Name = ""
  · simp [CreateItem, hp, hn]
  · by_cases hq : p.Quantity < 0
    · have hq2 : ¬ 0 ≤ p.Quantity := not_le.mpr hq
      simp [CreateItem, hp, hn, hq, hq2]
    · have hq2 : 0 ≤ p.Quantity := not_lt.mp hq
      simp [CreateItem, hp, hn, hq, hq2]

/-- C5 at three bodies on the fresh store: `("pen", 10)` is created with status 201,
`("", -1)` fails on the name, `("pen", -1)` fails on the quantity. -/
theorem C5_create_validation_witness :
    (CreateItem ⟨"", some ⟨none, some (.str "pen"), some (.int 10)⟩⟩ Store.fresh).1 =
      Result.sent StatusCreated (Payload.item ⟨1, "pen", 10⟩) ∧
    (CreateItem ⟨"", some ⟨none, none, some (.int (-1))⟩⟩ Store.fresh).1 =
      Result.error StatusBadRequest "Name is required" ∧
    (CreateItem ⟨"", some ⟨none, some (.str "pen"), some (.int (-1))⟩⟩ Store.fresh).1 =
      Result.error StatusBadRequest "Quantity must be non-negative" :=
  ⟨(C5_create_validation Store.fresh ⟨"", some ⟨none, some (.str "pen"), some (.int 10)⟩⟩ ⟨0, "pen", 10⟩
      (by decide)).2.1 (by decide),
   (C5_create_validation Store.fresh ⟨"", some ⟨none, none, some (.int (-1))⟩⟩ ⟨0, "", -1⟩
      (by decide)).2.2.1 (by decide),
   (C5_create_validation Store.fresh ⟨"", some ⟨none, some (.str "pen"), some (.int (-1))⟩⟩ ⟨0, "pen", -1⟩
      (by decide)).2.2.2 (by decide) (by decide)⟩

/-- A handler call that returns an error returns one of the five errors of the package and
hands back the store it was given. -/
theorem run_error (call : Call) (st : Store) (code : Nat) (msg : String)
    (herr : (call.run st).1 = Result.error code msg) :
    (call.run st).2 = st ∧
    (code, msg) ∈ [(StatusBadRequest, "Invalid ID"), (StatusBadRequest, "Invalid JSON"),
      (StatusBadRequest, "Name is required"),
      (StatusBadRequest, "Quantity must be non-negative"),
      (StatusNotFound, "Item Not Found")] := by
  cases call with
  | list seed => simp [Call.run, ListItems] at herr
  | get c =>
    revert herr
    simp only [Call.run, GetItem]
    split
    · intro h; simp at h; simp [← h.1, ← h.2]
    · split
      · intro h; simp at h; simp [← h.1, ← h.2]
      · intro h; simp at h
  | create c =>
    revert herr
    simp only [Call.run, CreateItem]
    split
    · intro h; simp at h; simp [← h.1, ← h.2]
    · split
      · intro h; simp at h; simp [← h.1, ← h.2]
      · split
        · intro h; simp at h; simp [← h.1, ← h.2]
        · intro h; simp at h
  | update c =>
    revert herr
    simp only [Call.run, UpdateItem]
    split
    · intro h; simp at h; simp [← h.1, ← h.2]
    · split
      · intro h; simp at h; simp [← h.1, ← h.2]
      · split
        · intro h; simp at h; simp [← h.1, ← h.2]
        · intro h; simp at h
  | delete c =>
    revert herr
    simp only [Call.run, DeleteItem]
    split
    · intro h; simp at h; simp [← h.1, ← h.2]
    · split
      · intro h; simp at h; simp [← h.1, ← h.2]
      · intro h; simp at h

/-- C6: a rejected operation never applies in part.  Whenever a call of ListItems, GetItem,
CreateItem, UpdateItem or DeleteItem returns an error, the error is one of 400 "Invalid ID",
400 "Invalid JSON", 400 "Name is required", 400 "Quantity must be non-negative" and
404 "Item Not Found", and itemStore and nextItemID after the call are what they were
before; so after a create rejected for its empty name, the next create behaves as if the
rejected call had not occurred. -/
theorem C6_rejected_call_changes_nothing :
    (∀ (call : Call) (st : Store) (code : Nat) (msg : String),
      (call.run st).1 = Result.error code msg →
        (call.run st).2 = st ∧
        (call.run st).2.itemStore = st.itemStore ∧
        (call.run st).2.nextItemID = st.nextItemID ∧
        (code, msg) ∈ [(StatusBadRequest, "Invalid ID"), (StatusBadRequest, "Invalid JSON"),
          (StatusBadRequest, "Name is required"),
          (StatusBadRequest, "Quantity must be non-negative"),
          (StatusNotFound, "Item Not Found")]) ∧
    (∀ (st : Store) (bad good : Ctx) (p : Item),
      bad.BodyParser Item.zero = some p → p.Name = "" →
        CreateItem bad st = (Result.error StatusBadRequest "Name is required", st) ∧
        CreateItem good (CreateItem bad st).2 = CreateItem good st) := by
  constructor
  · intro call st code msg herr
    obtain ⟨h1, h2⟩ := run_error call st code msg herr
    exact ⟨h1, by rw [h1], by rw [h1], h2⟩
  · intro st bad good p hp hn
    have h : CreateItem bad st = (Result.error StatusBadRequest "Name is required", st) := by
      simp [CreateItem, hp, hn]
    exact ⟨h, by rw [h]⟩

/-- C6 at the fresh store: Create(name "", quantity 1) is rejected, and the create of
`pen` that follows it returns what it returns on the fresh store, the item with ID 1. -/
theorem C6_rejected_call_changes_nothing_witness :
    CreateItem ⟨"", some ⟨none, some (.str ""), some (.int 1)⟩⟩ Store.fresh =
      (Result.error StatusBadRequest "Name is required", Store.fresh) ∧
    CreateItem ⟨"", some ⟨none, some (.str "pen"), some (.int 10)⟩⟩
        (CreateItem ⟨"", some ⟨none, some (.str ""), some (.int 1)⟩⟩ Store.fresh).2 =
      CreateItem ⟨"", some ⟨none, some (.str "pen"), some (.int 10)⟩⟩ Store.fresh :=
  C6_rejected_call_changes_nothing.2 Store.fresh ⟨"", some ⟨none, some (.str ""), some (.int 1)⟩⟩
    ⟨"", some ⟨none, some (.str "pen"), some (.int 10)⟩⟩ ⟨0, "", 1⟩ (by decide) (by decide)

/-- C7: round trip.  For a valid candidate `p` (non-empty name, quantity at least 0),
CreateItem answers 201 with `p` under the ID that nextItemID had before the call, and a
GetItem on that ID right after answers 200 with the same item and leaves the store as the
create left it. -/
theorem C7_create_then_get (st : Store) (c g : Ctx) (p : Item)
    (hp : c.BodyParser Item.zero = some p) (hn : p.Name ≠ "") (hq : 0 ≤ p.Quantity)
    (hg : Atoi (g.Params "id") = some st.nextItemID) :
    (CreateItem c st).1 =
      Result.sent StatusCreated (Payload.item ⟨st.nextItemID, p.Name, p.Quantity⟩) ∧
    (GetItem g (CreateItem c st).2).1 =
      Result.sent StatusOK (Payload.item ⟨st.nextItemID, p.Name, p.Quantity⟩) ∧
    (GetItem g (CreateItem c st).2).2 = (CreateItem c st).2 := by
  rw [CreateItem_valid c st p hp hn hq]
  refine ⟨rfl, ?_, ?_⟩
  · simp [GetItem, hg, AList.lookup_insert]
  · simp [GetItem, hg, AList.lookup_insert]

/-- C7 for Create(name "widget", quantity 5) on a store whose counter stands at 5. -/
theorem C7_create_then_get_witness :
    (CreateItem ⟨"", some ⟨none, some (.str "widget"), some (.int 5)⟩⟩ ⟨AList.singleton 3 ⟨3, "a", 2⟩, 5⟩).1 =
      Result.sent StatusCreated (Payload.item ⟨5, "widget", 5⟩) ∧
    (GetItem ⟨"5", none⟩
      (CreateItem ⟨"", some ⟨none, some (.str "widget"), some (.int 5)⟩⟩
        ⟨AList.singleton 3 ⟨3, "a", 2⟩, 5⟩).2).1 =
      Result.sent StatusOK (Payload.item ⟨5, "widget", 5⟩) :=
  ⟨(C7_create_then_get ⟨AList.singleton 3 ⟨3, "a", 2⟩, 5⟩
      ⟨"", some ⟨none, some (.str "widget"), some (.int 5)⟩⟩ ⟨"5", none⟩ ⟨0, "widget", 5⟩
      (by decide) (by decide) (by decide) (by decide)).1,
   (C7_create_then_get ⟨AList.singleton 3 ⟨3, "a", 2⟩, 5⟩
      ⟨"", some ⟨none, some (.str "widget"), some (.int 5)⟩⟩ ⟨"5", none⟩ ⟨0, "widget", 5⟩
      (by decide) (by decide) (by decide) (by decide)).2.1⟩

/-! ## Which keys the store holds along a run -/

/-- A key a call leaves in the store was in the store before or is the ID the call
assigned. -/
theorem run_mem (call : Call) (st : Store) (k : Int)
    (hk : k ∈ (call.run st).2.itemStore) :
    k ∈ st.itemStore ∨ issuedID (call, (call.run st).1) = some k := by
  cases call with
  | list seed => left; simpa [Call.run, ListItems] using hk
  | get c =>
    left
    revert hk
    simp only [Call.run, GetItem]
    split
    · exact id
    · split <;> exact id
  | create c =>
    revert hk
    simp only [Call.run]
    cases h : c.BodyParser Item.zero with
    | none => intro hk; left; simpa [CreateItem, h] using hk
    | some p =>
      by_cases hn : p.Name = ""
      · intro hk; left; simpa [CreateItem, h, hn] using hk
      · by_cases hq : p.Quantity < 0
        · intro hk; left; simpa [CreateItem, h, hn, hq] using hk
        · intro hk
          simp only [CreateItem, h, hn, hq, if_false, AList.mem_insert] at hk
          rcases hk with hk | hk
          · right; simp [CreateItem, h, hn, hq, issuedID, hk]
          · left; exact hk
  | update c =>
    left
    revert hk
    simp only [Call.run, UpdateItem]
    split
    · exact id
    · split
      · exact id
      · split
        · exact id
        · rename_i id0 _ _ _ _ existing hex
          intro hk
          simp only [AList.mem_insert] at hk
          rcases hk with hk | hk
          · rw [hk]
            exact AList.lookup_isSome.mp (by rw [hex]; rfl)
          · exact hk
  | delete c =>
    left
    revert hk
    simp only [Call.run, DeleteItem]
    split
    · exact id
    · split
      · exact id
      · intro hk
        exact (AList.mem_erase.mp hk).2

/-- A successful DeleteItem was called on a key of the store and leaves a store without
that key. -/
theorem run_deleted (call : Call) (st : Store) (k : Int)
    (hk : deletedID (call, (call.run st).1) = some k) :
    k ∈ st.itemStore ∧ k ∉ (call.run st).2.itemStore := by
  cases call with
  | list seed => simp [deletedID] at hk
  | get c => simp [deletedID] at hk
  | create c => simp [deletedID] at hk
  | update c => simp [deletedID] at hk
  | delete c =>
    revert hk
    simp only [Call.run, DeleteItem]
    split
    · simp [deletedID]
    · rename_i id0 hid
      split
      · simp [deletedID]
      · rename_i existing hex
        simp only [deletedID, hid, Option.some.injEq]
        intro h
        subst h
        refine ⟨AList.lookup_isSome.mp (by rw [hex]; rfl), ?_⟩
        simp [AList.mem_erase]

theorem deletedIDs_cons (call : Call) (rest : List Call) (st : Store) :
    deletedIDs (runCalls (call :: rest) st).1 =
      (deletedID (call, (call.run st).1)).toList ++
        deletedIDs (runCalls rest (call.run st).2).1 := by
  rw [runCalls_cons]
  simp only [deletedIDs, List.filterMap_cons]
  cases deletedID (call, (call.run st).1) <;> simp

/-- Every key of the store lies below the counter: preserved by every call. -/
theorem run_keys_below (call : Call) (st : Store)
    (hst : ∀ k, k ∈ st.itemStore → k < st.nextItemID) :
    ∀ k, k ∈ (call.run st).2.itemStore → k < (call.run st).2.nextItemID := by
  intro k hk
  have hmono := run_nextItemID_mono call st
  rcases run_mem call st k hk with h | h
  · have := hst k h
    omega
  · rcases run_nextItemID call st with ⟨h1, h2⟩ | ⟨h1, _⟩
    · rw [h1] at h
      simp only [Option.some.injEq] at h
      omega
    · rw [h1] at h
      simp at h

/-- From a store whose keys lie below the counter: a key the store holds after a run was
not removed during the run, and was in the store at the start or assigned during the
run. -/
theorem runCalls_mem (calls : List Call) (st : Store)
    (hst : ∀ k, k ∈ st.itemStore → k < st.nextItemID) (k : Int)
    (hk : k ∈ (runCalls calls st).2.itemStore) :
    k ∉ deletedIDs (runCalls calls st).1 ∧
      (k ∈ st.itemStore ∨ k ∈ issuedIDs (runCalls calls st).1) := by
  induction calls generalizing st with
  | nil =>
    refine ⟨by simp [runCalls, deletedIDs], Or.inl ?_⟩
    simpa [runCalls] using hk
  | cons call rest ih =>
    rw [runCalls_cons] at hk
    obtain ⟨h1, h2⟩ := ih (call.run st).2 (run_keys_below call st hst) hk
    rw [deletedIDs_cons, issuedIDs_cons]
    constructor
    · intro hmem
      rcases List.mem_append.mp hmem with h | h
      · have hd : deletedID (call, (call.run st).1) = some k := by
          cases hdel : deletedID (call, (call.run st).1) with
          | none => rw [hdel] at h; simp at h
          | some j => rw [hdel] at h; simp at h; rw [h]
        obtain ⟨hin, hout⟩ := run_deleted call st k hd
        rcases h2 with h2 | h2
        · exact hout h2
        · have hb := (issuedIDs_bounds rest (call.run st).2 k h2).1
          have hm := run_nextItemID_mono call st
          have := hst k hin
          omega
      · exact h1 h
    · rcases h2 with h2 | h2
      · rcases run_mem call st k h2 with h3 | h3
        · exact Or.inl h3
        · right
          rw [h3]
          simp
      · exact Or.inr (List.mem_append_right _ h2)

/-- C8: not found.  In the state a fresh store reaches by any sequence of handler calls,
an ID that no successful CreateItem of the sequence returned, or that a successful
DeleteItem of the sequence removed, is answered with 404 "Item Not Found" by GetItem, by
UpdateItem with any body that decodes, and by DeleteItem, and the store is left as it
is. -/
theorem C8_not_found (calls : List Call) (id : Int) (c : Ctx)
    (hid : Atoi (c.Params "id") = some id)
    (hgone : id ∉ issuedIDs (runCalls calls Store.fresh).1 ∨
      id ∈ deletedIDs (runCalls calls Store.fresh).1) :
    GetItem c (runCalls calls Store.fresh).2 =
      (Result.error StatusNotFound "Item Not Found", (runCalls calls Store.fresh).2) ∧
    ((c.BodyParser Item.zero).isSome →
      UpdateItem c (runCalls calls Store.fresh).2 =
        (Result.error StatusNotFound "Item Not Found", (runCalls calls Store.fresh).2)) ∧
    DeleteItem c (runCalls calls Store.fresh).2 =
      (Result.error StatusNotFound "Item Not Found", (runCalls calls Store.fresh).2) := by
  have hnot : id ∉ (runCalls calls Store.fresh).2.itemStore := by
    intro hmem
    have hfresh : ∀ k, k ∈ Store.fresh.itemStore → k < Store.fresh.nextItemID := by
      intro k hk
      exact absurd hk (AList.not_mem_empty k)
    obtain ⟨h1, h2⟩ := runCalls_mem calls Store.fresh hfresh id hmem
    rcases hgone with h | h
    · rcases h2 with h2 | h2
      · exact AList.not_mem_empty id h2
      · exact h h2
    · exact h1 h
  have hlook : (runCalls calls Store.fresh).2.itemStore.lookup id = none :=
    AList.lookup_eq_none.mpr hnot
  refine ⟨?_, ?_, ?_⟩
  · simp [GetItem, hid, hlook]
  · intro hb
    obtain ⟨p, hp⟩ := Option.isSome_iff_exists.mp hb
    simp [UpdateItem, hid, hp, hlook]
  · simp [DeleteItem, hid, hlook]

/-- C8 after create `pen` (ID 1), delete ID 1, create `ink` (ID 2): the removed ID 1 and
the never assigned ID -3 are both answered with 404 by GetItem. -/
theorem C8_not_found_witness :
    GetItem ⟨"1", none⟩
        (runCalls [Call.create ⟨"", some ⟨none, some (.str "pen"), some (.int 10)⟩⟩, Call.delete ⟨"1", none⟩,
          Call.create ⟨"", some ⟨none, some (.str "ink"), some (.int 0)⟩⟩] Store.fresh).2 =
      (Result.error StatusNotFound "Item Not Found",
        (runCalls [Call.create ⟨"", some ⟨none, some (.str "pen"), some (.int 10)⟩⟩, Call.delete ⟨"1", none⟩,
          Call.create ⟨"", some ⟨none, some (.str "ink"), some (.int 0)⟩⟩] Store.fresh).2) ∧
    GetItem ⟨"-3", none⟩
        (runCalls [Call.create ⟨"", some ⟨none, some (.str "pen"), some (.int 10)⟩⟩, Call.delete ⟨"1", none⟩,
          Call.create ⟨"", some ⟨none, some (.str "ink"), some (.int 0)⟩⟩] Store.fresh).2 =
      (Result.error StatusNotFound "Item Not Found",
        (runCalls [Call.create ⟨"", some ⟨none, some (.str "pen"), some (.int 10)⟩⟩, Call.delete ⟨"1", none⟩,
          Call.create ⟨"", some ⟨none, some (.str "ink"), some (.int 0)⟩⟩] Store.fresh).2) :=
  ⟨(C8_not_found
      [Call.create ⟨"", some ⟨none, some (.str "pen"), some (.int 10)⟩⟩, Call.delete ⟨"1", none⟩,
        Call.create ⟨"", some ⟨none, some (.str "ink"), some (.int 0)⟩⟩]
      1 ⟨"1", none⟩ (by decide) (Or.inr (by decide))).1,
   (C8_not_found
      [Call.create ⟨"", some ⟨none, some (.str "pen"), some (.int 10)⟩⟩, Call.delete ⟨"1", none⟩,
        Call.create ⟨"", some ⟨none, some (.str "ink"), some (.int 0)⟩⟩]
      (-3) ⟨"-3", none⟩ (by decide) (Or.inl (by decide))).1⟩

/-- C9: delete postcondition.  DeleteItem on the ID `id` succeeds exactly when `id` is a
key of itemStore; it then answers 204 with no body and leaves the old store with the key
`id` erased: `id` is no longer a key, every other key maps to what it mapped to, and
nextItemID is unchanged.  On any other ID it answers 404 and leaves the store as it is. -/
theorem C9_delete_postcondition (st : Store) (c : Ctx) (id : Int)
    (hid : Atoi (c.Params "id") = some id) :
    ((∃ status body, (DeleteItem c st).1 = Result.sent status body) ↔ id ∈ st.itemStore) ∧
    (id ∈ st.itemStore →
      DeleteItem c st =
        (Result.sent StatusNoContent Payload.empty,
          Store.mk (st.itemStore.erase id) st.nextItemID) ∧
      (DeleteItem c st).2.itemStore.lookup id = none ∧
      (∀ k, k ≠ id → (DeleteItem c st).2.itemStore.lookup k = st.itemStore.lookup k) ∧
      (DeleteItem c st).2.itemStore.keys = st.itemStore.keys.erase id ∧
      (DeleteItem c st).2.nextItemID = st.nextItemID) ∧
    (id ∉ st.itemStore →
      DeleteItem c st = (Result.error StatusNotFound "Item Not Found", st)) := by
  cases hl : st.itemStore.lookup id with
  | none =>
    have hnot : id ∉ st.itemStore := AList.lookup_eq_none.mp hl
    have hD : DeleteItem c st = (Result.error StatusNotFound "Item Not Found", st) := by
      simp [DeleteItem, hid, hl]
    refine ⟨?_, fun h => absurd h hnot, fun _ => hD⟩
    rw [hD]
    simp [hnot]
  | some existing =>
    have hin : id ∈ st.itemStore := AList.lookup_isSome.mp (by rw [hl]; rfl)
    have hD : DeleteItem c st =
        (Result.sent StatusNoContent Payload.empty,
          Store.mk (st.itemStore.erase id) st.nextItemID) := by
      simp [DeleteItem, hid, hl]
    refine ⟨?_, fun _ => ?_, fun h => absurd hin h⟩
    · rw [hD]
      simp [hin]
    · rw [hD]
      exact ⟨rfl, AList.lookup_erase id _, fun k hk => AList.lookup_erase_ne hk,
        AList.keys_erase id _, rfl⟩

/-- C9 on the store holding the IDs 1 and 2: deleting ID 1 answers 204 and leaves the
store holding ID 2 alone, with the counter still at 3. -/
theorem C9_delete_postcondition_witness :
    DeleteItem ⟨"1", none⟩
        ⟨AList.insert 2 ⟨2, "b", 0⟩ (AList.singleton 1 ⟨1, "a", 2⟩), 3⟩ =
      (Result.sent StatusNoContent Payload.empty,
        Store.mk
          (AList.erase 1 (AList.insert 2 ⟨2, "b", 0⟩ (AList.singleton 1 ⟨1, "a", 2⟩))) 3) :=
  ((C9_delete_postcondition ⟨AList.insert 2 ⟨2, "b", 0⟩ (AList.singleton 1 ⟨1, "a", 2⟩), 3⟩
      ⟨"1", none⟩ 1 (by decide)).2.1 (by decide)).1

theorem rangeOrder_perm {α : Type} (seed : List Nat) (l : List α) :
    (rangeOrder seed l).Perm l := by
  induction l generalizing seed with
  | nil => simp [rangeOrder]
  | cons a l ih =>
    simp only [rangeOrder]
    have hle : seed.headD 0 % ((rangeOrder seed.tail l).length + 1) ≤
        (rangeOrder seed.tail l).length :=
      Nat.lt_succ_iff.mp (Nat.mod_lt _ (Nat.succ_pos _))
    exact (List.perm_insertIdx a _ hle).trans ((ih seed.tail).cons a)

theorem foldl_append_values (l : List (Sigma fun _ : Int => Item)) (acc : List Item) :
    l.foldl (fun items kv => items ++ [kv.2]) acc = acc ++ l.map (fun kv => kv.2) := by
  induction l generalizing acc with
  | nil => simp
  | cons kv l ih => simp [ih]

/-- C10: list snapshot.  Whatever order the map is visited in, ListItems answers 200 with
a sequence that is a permutation of the values of itemStore: it holds exactly the items
some key maps to, its length is the number of keys, on the empty store it is empty, and
the store after the call is the store before it. -/
theorem C10_list_snapshot (seed : List Nat) (st : Store) :
    ∃ items : List Item,
      ListItems seed st = (Result.sent StatusOK (Payload.items items), st) ∧
      items.Perm (st.itemStore.entries.map (fun kv => kv.2)) ∧
      (∀ it : Item, it ∈ items ↔ ∃ k, st.itemStore.lookup k = some it) ∧
      items.length = st.itemStore.keys.length ∧
      (ListItems seed ⟨∅, st.nextItemID⟩).1 = Result.sent StatusOK (Payload.items []) := by
  have hperm : ((rangeOrder seed st.itemStore.entries).map (fun kv => kv.2)).Perm
      (st.itemStore.entries.map (fun kv => kv.2)) :=
    (rangeOrder_perm seed st.itemStore.entries).map _
  refine ⟨(rangeOrder seed st.itemStore.entries).map (fun kv => kv.2), ?_, hperm, ?_, ?_, ?_⟩
  · simp [ListItems, foldl_append_values]
  · intro it
    rw [hperm.mem_iff]
    simp only [List.mem_map]
    constructor
    · rintro ⟨⟨k, v⟩, hmem, rfl⟩
      exact ⟨k, AList.mem_lookup_iff.mpr hmem⟩
    · rintro ⟨k, hk⟩
      exact ⟨⟨k, it⟩, AList.mem_lookup_iff.mp hk, rfl⟩
  · rw [hperm.length_eq]
    simp [AList.keys, List.keys]
  · simp [ListItems, rangeOrder]

/-! ## The ID of an item, the check order of UpdateItem, well-formed stores -/

/-- The `id` member does not reach the decoded name and quantity: two bodies that differ in
a decodable `id` alone decode to items that differ in the ID alone. -/
theorem BodyParser_id (param : String) (id name quantity : Option JsonValue) (v : Int)
    (hv : decodeInt Item.zero.ID id = some v) :
    Ctx.BodyParser ⟨param, some ⟨id, name, quantity⟩⟩ Item.zero =
      (Ctx.BodyParser ⟨param, some ⟨none, name, quantity⟩⟩ Item.zero).map
        (fun p => { p with ID := v }) := by
  have h0 : decodeInt Item.zero.ID none = some Item.zero.ID := rfl
  simp only [Ctx.BodyParser, hv, h0]
  cases decodeString Item.zero.Name name <;>
    cases decodeInt Item.zero.Quantity quantity <;> rfl

/-- CreateItem does not read the ID of the decoded body. -/
theorem CreateItem_id (param : String) (id name quantity : Option JsonValue) (st : Store)
    (hv : (decodeInt Item.zero.ID id).isSome) :
    CreateItem ⟨param, some ⟨id, name, quantity⟩⟩ st =
      CreateItem ⟨param, some ⟨none, name, quantity⟩⟩ st := by
  obtain ⟨v, hv⟩ := Option.isSome_iff_exists.mp hv
  simp only [CreateItem, BodyParser_id param id name quantity v hv]
  cases Ctx.BodyParser ⟨param, some ⟨none, name, quantity⟩⟩ Item.zero <;> rfl

/-- UpdateItem does not read the ID of the decoded body. -/
theorem UpdateItem_id (param : String) (id name quantity : Option JsonValue) (st : Store)
    (hv : (decodeInt Item.zero.ID id).isSome) :
    UpdateItem ⟨param, some ⟨id, name, quantity⟩⟩ st =
      UpdateItem ⟨param, some ⟨none, name, quantity⟩⟩ st := by
  obtain ⟨v, hv⟩ := Option.isSome_iff_exists.mp hv
  simp only [UpdateItem, BodyParser_id param id name quantity v hv, Ctx.Params]
  cases Ctx.BodyParser ⟨param, some ⟨none, name, quantity⟩⟩ Item.zero <;> rfl

/-- C11, refuted as stated: the `id` member of a body is not ignored by every body.  On the
fresh store the body `(name "pen", quantity 10)` is created under ID 1, and the same body
with the `id` member `"7"` (a string) or `9223372036854775808` (which does not fit `int`)
is rejected with 400 "Invalid JSON" and nothing is stored; likewise UpdateItem, on the
store holding `(1, "a", 2)`, answers 200 without the member and 400 with it. -/
theorem C11_undecodable_id_rejected :
    (CreateItem ⟨"", some ⟨none, some (.str "pen"), some (.int 10)⟩⟩ Store.fresh).1 =
      Result.sent StatusCreated (Payload.item ⟨1, "pen", 10⟩) ∧
    CreateItem ⟨"", some ⟨some (.str "7"), some (.str "pen"), some (.int 10)⟩⟩ Store.fresh =
      (Result.error StatusBadRequest "Invalid JSON", Store.fresh) ∧
    CreateItem ⟨"", some ⟨some (.int 9223372036854775808), some (.str "pen"), some (.int 10)⟩⟩
        Store.fresh =
      (Result.error StatusBadRequest "Invalid JSON", Store.fresh) ∧
    (UpdateItem ⟨"1", some ⟨none, some (.str "b"), some (.int 5)⟩⟩
        ⟨AList.singleton 1 ⟨1, "a", 2⟩, 2⟩).1 =
      Result.sent StatusOK (Payload.item ⟨1, "b", 5⟩) ∧
    UpdateItem ⟨"1", some ⟨some (.str "7"), some (.str "b"), some (.int 5)⟩⟩
        ⟨AList.singleton 1 ⟨1, "a", 2⟩, 2⟩ =
      (Result.error StatusBadRequest "Invalid JSON", ⟨AList.singleton 1 ⟨1, "a", 2⟩, 2⟩) :=
  ⟨by decide, rfl, rfl, by decide, rfl⟩

/-- C11, as amended: the id is assigned by the store and immutable.  A body whose `id`
member cannot be decoded into an `int` is rejected with 400 "Invalid JSON" by CreateItem,
and by UpdateItem once the path id is an integer.  For every other body the value of the
`id` member is ignored: CreateItem and UpdateItem return the result and leave the store of
the same body without the member; CreateItem with a valid candidate returns and stores
the item under ID = nextItemID; and UpdateItem on a key `i` that maps to an item with ID
`i` returns and stores, under key `i`, an item whose ID is `i`. -/
theorem C11_decodable_id_ignored (st : Store) (param : String)
    (id name quantity : Option JsonValue) :
    (decodeInt Item.zero.ID id = none →
      CreateItem ⟨param, some ⟨id, name, quantity⟩⟩ st =
        (Result.error StatusBadRequest "Invalid JSON", st) ∧
      ((Atoi param).isSome →
        UpdateItem ⟨param, some ⟨id, name, quantity⟩⟩ st =
          (Result.error StatusBadRequest "Invalid JSON", st))) ∧
    ((decodeInt Item.zero.ID id).isSome →
      CreateItem ⟨param, some ⟨id, name, quantity⟩⟩ st =
        CreateItem ⟨param, some ⟨none, name, quantity⟩⟩ st ∧
      UpdateItem ⟨param, some ⟨id, name, quantity⟩⟩ st =
        UpdateItem ⟨param, some ⟨none, name, quantity⟩⟩ st ∧
      (∀ p, Ctx.BodyParser ⟨param, some ⟨id, name, quantity⟩⟩ Item.zero = some p →
        p.Name ≠ "" → 0 ≤ p.Quantity →
        CreateItem ⟨param, some ⟨id, name, quantity⟩⟩ st =
          (Result.sent StatusCreated (Payload.item ⟨st.nextItemID, p.Name, p.Quantity⟩),
            Store.mk (st.itemStore.insert st.nextItemID ⟨st.nextItemID, p.Name, p.Quantity⟩)
              (st.nextItemID + 1)) ∧
        (CreateItem ⟨param, some ⟨id, name, quantity⟩⟩ st).2.itemStore.lookup st.nextItemID =
          some ⟨st.nextItemID, p.Name, p.Quantity⟩) ∧
      (∀ p i existing, Ctx.BodyParser ⟨param, some ⟨id, name, quantity⟩⟩ Item.zero = some p →
        Atoi param = some i → st.itemStore.lookup i = some existing → existing.ID = i →
        ∃ it, (UpdateItem ⟨param, some ⟨id, name, quantity⟩⟩ st).1 =
            Result.sent StatusOK (Payload.item it) ∧ it.ID = i ∧
          (UpdateItem ⟨param, some ⟨id, name, quantity⟩⟩ st).2.itemStore.lookup i =
            some it)) := by
  constructor
  · intro hnone
    have hb : Ctx.BodyParser ⟨param, some ⟨id, name, quantity⟩⟩ Item.zero = none := by
      simp [Ctx.BodyParser, hnone]
    refine ⟨by simp [CreateItem, hb], fun ha => ?_⟩
    obtain ⟨i, hi⟩ := Option.isSome_iff_exists.mp ha
    simp [UpdateItem, Ctx.Params, hi, hb]
  · intro hsome
    refine ⟨CreateItem_id param id name quantity st hsome,
      UpdateItem_id param id name quantity st hsome, ?_, ?_⟩
    · intro p hp hn hq
      have h := CreateItem_valid ⟨param, some ⟨id, name, quantity⟩⟩ st p hp hn hq
      rw [h]
      exact ⟨rfl, AList.lookup_insert _⟩
    · intro p i existing hp hid hex hID
      have hid2 : Atoi (Ctx.Params ⟨param, some ⟨id, name, quantity⟩⟩ "id") = some i := by
        simpa [Ctx.Params] using hid
      simp only [UpdateItem, hid2, hp, hex]
      refine ⟨_, rfl, ?_, AList.lookup_insert _⟩
      split <;> split <;> exact hID

/-- C11 as amended, on the store holding `(1, "a", 2)` with the counter at 2 and the body
`(id 99, name "b", quantity 5)`: CreateItem returns and stores the item under ID 2, the
value of nextItemID, not under 99; UpdateItem on the path id 1 returns what it returns
for the body without the member, an item with ID 1; and CreateItem rejects the same body
with the `id` member `"99"`, a string. -/
theorem C11_decodable_id_ignored_witness :
    (CreateItem ⟨"1", some ⟨some (.int 99), some (.str "b"), some (.int 5)⟩⟩
        ⟨AList.singleton 1 ⟨1, "a", 2⟩, 2⟩ =
      (Result.sent StatusCreated (Payload.item ⟨2, "b", 5⟩),
        Store.mk (AList.insert 2 ⟨2, "b", 5⟩ (AList.singleton 1 ⟨1, "a", 2⟩)) (2 + 1)) ∧
      (CreateItem ⟨"1", some ⟨some (.int 99), some (.str "b"), some (.int 5)⟩⟩
        ⟨AList.singleton 1 ⟨1, "a", 2⟩, 2⟩).2.itemStore.lookup 2 = some ⟨2, "b", 5⟩) ∧
    UpdateItem ⟨"1", some ⟨some (.int 99), some (.str "b"), some (.int 5)⟩⟩
        ⟨AList.singleton 1 ⟨1, "a", 2⟩, 2⟩ =
      UpdateItem ⟨"1", some ⟨none, some (.str "b"), some (.int 5)⟩⟩
        ⟨AList.singleton 1 ⟨1, "a", 2⟩, 2⟩ ∧
    (∃ it, (UpdateItem ⟨"1", some ⟨some (.int 99), some (.str "b"), some (.int 5)⟩⟩
          ⟨AList.singleton 1 ⟨1, "a", 2⟩, 2⟩).1 = Result.sent StatusOK (Payload.item it) ∧
        it.ID = 1 ∧
        (UpdateItem ⟨"1", some ⟨some (.int 99), some (.str "b"), some (.int 5)⟩⟩
          ⟨AList.singleton 1 ⟨1, "a", 2⟩, 2⟩).2.itemStore.lookup 1 = some it) ∧
    CreateItem ⟨"1", some ⟨some (.str "99"), some (.str "b"), some (.int 5)⟩⟩
        ⟨AList.singleton 1 ⟨1, "a", 2⟩, 2⟩ =
      (Result.error StatusBadRequest "Invalid JSON", ⟨AList.singleton 1 ⟨1, "a", 2⟩, 2⟩) :=
  ⟨((C11_decodable_id_ignored ⟨AList.singleton 1 ⟨1, "a", 2⟩, 2⟩ "1" (some (.int 99))
      (some (.str "b")) (some (.int 5))).2 (by decide)).2.2.1 ⟨99, "b", 5⟩
      (by decide) (by decide) (by decide),
   ((C11_decodable_id_ignored ⟨AList.singleton 1 ⟨1, "a", 2⟩, 2⟩ "1" (some (.int 99))
      (some (.str "b")) (some (.int 5))).2 (by decide)).2.1,
   ((C11_decodable_id_ignored ⟨AList.singleton 1 ⟨1, "a", 2⟩, 2⟩ "1" (some (.int 99))
      (some (.str "b")) (some (.int 5))).2 (by decide)).2.2.2 ⟨99, "b", 5⟩ 1 ⟨1, "a", 2⟩
      (by decide) (by decide) (by decide) rfl,
   ((C11_decodable_id_ignored ⟨AList.singleton 1 ⟨1, "a", 2⟩, 2⟩ "1" (some (.str "99"))
      (some (.str "b")) (some (.int 5))).1 (by decide)).1⟩

/-- C12: the end-to-end scenario on a fresh store, through the item routes.
`POST /items` with `("pen", 10)` answers 201 with `(1, "pen", 10)`; `GET /items/1` answers
200 with the same item; `PUT /items/1` with a body carrying only the quantity 3 answers
200 with `(1, "pen", 3)`; `DELETE /items/1` answers 204 with no body; `GET /items/1`
answers 404. -/
theorem C12_end_to_end :
    ((runCalls
        ([route [] Method.POST none (some ⟨none, some (.str "pen"), some (.int 10)⟩),
          route [] Method.GET (some "1") none,
          route [] Method.PUT (some "1") (some ⟨none, none, some (.int 3)⟩),
          route [] Method.DELETE (some "1") none,
          route [] Method.GET (some "1") none].filterMap id)
        Store.fresh).1.map (fun e => e.2)) =
      [Result.sent StatusCreated (Payload.item ⟨1, "pen", 10⟩),
       Result.sent StatusOK (Payload.item ⟨1, "pen", 10⟩),
       Result.sent StatusOK (Payload.item ⟨1, "pen", 3⟩),
       Result.sent StatusNoContent Payload.empty,
       Result.error StatusNotFound "Item Not Found"] := by
  decide

/-- C15: the order of the checks in UpdateItem.  A path segment that Atoi rejects gives
400 "Invalid ID" whatever the body; otherwise a body that cannot be decoded gives
400 "Invalid JSON" whether or not the id is a key; otherwise an id that is not a key gives
404 "Item Not Found"; otherwise the answer is 200 with an item.  The store is handed back
unchanged in the three error cases, and there is no other outcome. -/
theorem C15_update_check_order (c : Ctx) (st : Store) :
    (Atoi (c.Params "id") = none →
      UpdateItem c st = (Result.error StatusBadRequest "Invalid ID", st)) ∧
    (∀ id, Atoi (c.Params "id") = some id → c.BodyParser Item.zero = none →
      UpdateItem c st = (Result.error StatusBadRequest "Invalid JSON", st)) ∧
    (∀ id p, Atoi (c.Params "id") = some id → c.BodyParser Item.zero = some p →
      id ∉ st.itemStore →
      UpdateItem c st = (Result.error StatusNotFound "Item Not Found", st)) ∧
    (∀ id p, Atoi (c.Params "id") = some id → c.BodyParser Item.zero = some p →
      id ∈ st.itemStore →
      ∃ it, (UpdateItem c st).1 = Result.sent StatusOK (Payload.item it)) ∧
    ((UpdateItem c st).1 = Result.error StatusBadRequest "Invalid ID" ∨
      (UpdateItem c st).1 = Result.error StatusBadRequest "Invalid JSON" ∨
      (UpdateItem c st).1 = Result.error StatusNotFound "Item Not Found" ∨
      ∃ it, (UpdateItem c st).1 = Result.sent StatusOK (Payload.item it)) := by
  cases hid : Atoi (c.Params "id") with
  | none => simp [UpdateItem, hid]
  | some id =>
    cases hp : c.BodyParser Item.zero with
    | none => simp [UpdateItem, hid, hp]
    | some p =>
      cases hl : st.itemStore.lookup id with
      | none =>
        have hnot : id ∉ st.itemStore := AList.lookup_eq_none.mp hl
        simp [UpdateItem, hid, hp, hl, hnot]
      | some existing =>
        have hin : id ∈ st.itemStore := AList.lookup_isSome.mp (by rw [hl]; rfl)
        simp [UpdateItem, hid, hp, hl, hin]

/-- C15 on the store holding `(1, "a", 2)`: the segment `x` gives 400 "Invalid ID" with a
good body, an undecodable body gives 400 "Invalid JSON" on the stored ID 1 and on the
absent ID 7, and a decodable body on the absent ID 7 gives 404. -/
theorem C15_update_check_order_witness :
    UpdateItem ⟨"x", some ⟨none, some (.str "b"), some (.int 5)⟩⟩ ⟨AList.singleton 1 ⟨1, "a", 2⟩, 2⟩ =
      (Result.error StatusBadRequest "Invalid ID", ⟨AList.singleton 1 ⟨1, "a", 2⟩, 2⟩) ∧
    UpdateItem ⟨"1", none⟩ ⟨AList.singleton 1 ⟨1, "a", 2⟩, 2⟩ =
      (Result.error StatusBadRequest "Invalid JSON", ⟨AList.singleton 1 ⟨1, "a", 2⟩, 2⟩) ∧
    UpdateItem ⟨"7", none⟩ ⟨AList.singleton 1 ⟨1, "a", 2⟩, 2⟩ =
      (Result.error StatusBadRequest "Invalid JSON", ⟨AList.singleton 1 ⟨1, "a", 2⟩, 2⟩) ∧
    UpdateItem ⟨"7", some ⟨none, some (.str "b"), some (.int 5)⟩⟩ ⟨AList.singleton 1 ⟨1, "a", 2⟩, 2⟩ =
      (Result.error StatusNotFound "Item Not Found", ⟨AList.singleton 1 ⟨1, "a", 2⟩, 2⟩) :=
  ⟨(C15_update_check_order ⟨"x", some ⟨none, some (.str "b"), some (.int 5)⟩⟩
      ⟨AList.singleton 1 ⟨1, "a", 2⟩, 2⟩).1 (by decide),
   (C15_update_check_order ⟨"1", none⟩
      ⟨AList.singleton 1 ⟨1, "a", 2⟩, 2⟩).2.1 1 (by decide) (by decide),
   (C15_update_check_order ⟨"7", none⟩
      ⟨AList.singleton 1 ⟨1, "a", 2⟩, 2⟩).2.1 7 (by decide) (by decide),
   (C15_update_check_order ⟨"7", some ⟨none, some (.str "b"), some (.int 5)⟩⟩
      ⟨AList.singleton 1 ⟨1, "a", 2⟩, 2⟩).2.2.1 7 ⟨0, "b", 5⟩ (by decide) (by decide)
      (by decide)⟩

theorem CreateItem_wellFormed (c : Ctx) (st : Store) (hst : st.WellFormed) :
    (CreateItem c st).2.WellFormed := by
  cases hp : c.BodyParser Item.zero with
  | none => simpa [CreateItem, hp] using hst
  | some p =>
    by_cases hn : p.Name = ""
    · simpa [CreateItem, hp, hn] using hst
    · by_cases hq : p.Quantity < 0
      · simpa [CreateItem, hp, hn, hq] using hst
      · simp only [CreateItem, hp, hn, hq, if_false]
        obtain ⟨h1, h2⟩ := hst
        refine ⟨by show 1 ≤ st.nextItemID + 1; omega, ?_⟩
        intro k it hk
        show it.ID = k ∧ 1 ≤ k ∧ k < st.nextItemID + 1 ∧ it.Name ≠ "" ∧ 0 ≤ it.Quantity
        by_cases hkn : k = st.nextItemID
        · subst hkn
          have hk2 : some (Item.mk st.nextItemID p.Name p.Quantity) = some it := by
            rw [← hk]
            exact (AList.lookup_insert st.itemStore).symm
          simp only [Option.some.injEq] at hk2
          subst hk2
          exact ⟨rfl, h1, by omega, hn, not_lt.mp hq⟩
        · have hk2 : st.itemStore.lookup k = some it := by
            rw [← hk]
            exact (AList.lookup_insert_ne hkn).symm
          obtain ⟨a, b, c1, d, e⟩ := h2 k it hk2
          exact ⟨a, b, by omega, d, e⟩

theorem UpdateItem_wellFormed (c : Ctx) (st : Store) (hst : st.WellFormed) :
    (UpdateItem c st).2.WellFormed := by
  cases hid : Atoi (c.Params "id") with
  | none => simpa [UpdateItem, hid] using hst
  | some id =>
    cases hp : c.BodyParser Item.zero with
    | none => simpa [UpdateItem, hid, hp] using hst
    | some p =>
      cases hl : st.itemStore.lookup id with
      | none => simpa [UpdateItem, hid, hp, hl] using hst
      | some existing =>
        simp only [UpdateItem, hid, hp, hl]
        obtain ⟨h1, h2⟩ := hst
        obtain ⟨a, b, c1, d, e⟩ := h2 id existing hl
        refine ⟨h1, ?_⟩
        intro k it hk
        show it.ID = k ∧ 1 ≤ k ∧ k < st.nextItemID ∧ it.Name ≠ "" ∧ 0 ≤ it.Quantity
        by_cases hkn : k = id
        · subst hkn
          rw [AList.lookup_insert] at hk
          simp only [Option.some.injEq] at hk
          subst hk
          refine ⟨?_, b, c1, ?_, ?_⟩
          · split <;> split <;> exact a
          · by_cases hn : p.Name = "" <;> by_cases hq : p.Quantity ≥ 0 <;> simp [hn, hq, d]
          · by_cases hn : p.Name = "" <;> by_cases hq : p.Quantity ≥ 0 <;> simp [hn, hq, e]
        · rw [AList.lookup_insert_ne hkn] at hk
          exact h2 k it hk

theorem DeleteItem_wellFormed (c : Ctx) (st : Store) (hst : st.WellFormed) :
    (DeleteItem c st).2.WellFormed := by
  cases hid : Atoi (c.Params "id") with
  | none => simpa [DeleteItem, hid] using hst
  | some id =>
    cases hl : st.itemStore.lookup id with
    | none => simpa [DeleteItem, hid, hl] using hst
    | some existing =>
      simp only [DeleteItem, hid, hl]
      obtain ⟨h1, h2⟩ := hst
      refine ⟨h1, ?_⟩
      intro k it hk
      show it.ID = k ∧ 1 ≤ k ∧ k < st.nextItemID ∧ it.Name ≠ "" ∧ 0 ≤ it.Quantity
      by_cases hkn : k = id
      · subst hkn
        rw [AList.lookup_erase] at hk
        exact absurd hk (by simp)
      · rw [AList.lookup_erase_ne hkn] at hk
        exact h2 k it hk

/-- Every handler call takes a well-formed store to a well-formed store. -/
theorem run_wellFormed (call : Call) (st : Store) (hst : st.WellFormed) :
    (call.run st).2.WellFormed := by
  cases call with
  | list seed => simpa [Call.run, ListItems] using hst
  | get c =>
    simp only [Call.run, GetItem]
    split
    · exact hst
    · split <;> exact hst
  | create c => exact CreateItem_wellFormed c st hst
  | update c => exact UpdateItem_wellFormed c st hst
  | delete c => exact DeleteItem_wellFormed c st hst

theorem runCalls_wellFormed (calls : List Call) (st : Store) (hst : st.WellFormed) :
    (runCalls calls st).2.WellFormed := by
  induction calls generalizing st with
  | nil => simpa [runCalls] using hst
  | cons call rest ih =>
    rw [runCalls_cons]
    exact ih _ (run_wellFormed call st hst)

/-- C16: well-formedness of reachable states.  In every state a fresh store reaches by a
sequence of handler calls, nextItemID is at least 1 and every entry `(k, item)` of
itemStore has `item.ID = k`, `1 ≤ k < nextItemID`, a non-empty name and a quantity of at
least 0; and UpdateItem keeps every well-formed store well-formed, so its merge rule never
stores an empty name or a negative quantity. -/
theorem C16_reachable_wellFormed :
    (∀ calls : List Call,
      1 ≤ (runCalls calls Store.fresh).2.nextItemID ∧
      ∀ (k : Int) (it : Item), (runCalls calls Store.fresh).2.itemStore.lookup k = some it →
        it.ID = k ∧ 1 ≤ k ∧ k < (runCalls calls Store.fresh).2.nextItemID ∧
          it.Name ≠ "" ∧ 0 ≤ it.Quantity) ∧
    (∀ (c : Ctx) (st : Store), st.WellFormed →
      ∀ (k : Int) (it : Item), (UpdateItem c st).2.itemStore.lookup k = some it →
        it.ID = k ∧ it.Name ≠ "" ∧ 0 ≤ it.Quantity) := by
  constructor
  · intro calls
    have hfresh : Store.fresh.WellFormed := by
      refine ⟨le_refl _, ?_⟩
      intro k it hk
      simp [Store.fresh] at hk
    exact runCalls_wellFormed calls Store.fresh hfresh
  · intro c st hst k it hk
    obtain ⟨a, _, _, d, e⟩ := (UpdateItem_wellFormed c st hst).2 k it hk
    exact ⟨a, d, e⟩

/-! ## Lock discipline -/

@[simp]
theorem Lock_run (m : Mem) :
    Lock.run m = if m.storeMu then none else some ((), { m with storeMu := true }) := rfl

@[simp]
theorem Unlock_run (m : Mem) :
    Unlock.run m = if m.storeMu then some ((), { m with storeMu := false }) else none := rfl

@[simp]
theorem access_run (a : Access) (m : Mem) :
    (access a).run m = some ((), { m with accesses := m.accesses ++ [(a, m.storeMu)] }) := rfl

@[simp]
theorem loadItem_run (id : Int) (m : Mem) :
    (loadItem id).run m =
      some (m.store.itemStore.lookup id,
        { m with accesses := m.accesses ++ [(Access.readItemStore, m.storeMu)] }) := rfl

@[simp]
theorem storeItem_run (id : Int) (item : Item) (m : Mem) :
    (storeItem id item).run m =
      some ((), ⟨⟨m.store.itemStore.insert id item, m.store.nextItemID⟩, m.storeMu,
        m.accesses ++ [(Access.writeItemStore, m.storeMu)]⟩) := rfl

@[simp]
theorem deleteItem_run (id : Int) (m : Mem) :
    (deleteItem id).run m =
      some ((), ⟨⟨m.store.itemStore.erase id, m.store.nextItemID⟩, m.storeMu,
        m.accesses ++ [(Access.writeItemStore, m.storeMu)]⟩) := rfl

@[simp]
theorem lenItemStore_run (m : Mem) :
    lenItemStore.run m =
      some (m.store.itemStore.entries.length,
        { m with accesses := m.accesses ++ [(Access.readItemStore, m.storeMu)] }) := rfl

@[simp]
theorem rangeItemStore_run (seed : List Nat) (m : Mem) :
    (rangeItemStore seed).run m =
      some (rangeOrder seed m.store.itemStore.entries,
        { m with accesses := m.accesses ++ [(Access.readItemStore, m.storeMu)] }) := rfl

@[simp]
theorem loadNextItemID_run (m : Mem) :
    loadNextItemID.run m =
      some (m.store.nextItemID,
        { m with accesses := m.accesses ++ [(Access.readNextItemID, m.storeMu)] }) := rfl

@[simp]
theorem storeNextItemID_run (v : Int) (m : Mem) :
    (storeNextItemID v).run m =
      some ((), ⟨⟨m.store.itemStore, v⟩, m.storeMu,
        m.accesses ++ [(Access.writeNextItemID, m.storeMu)]⟩) := rfl

/-- ListItems with the mutex, started with the mutex free. -/
theorem ListItemsMu_free (seed : List Nat) (st : Store) (tr : List (Access × Bool)) :
    (ListItemsMu seed).run ⟨st, false, tr⟩ =
      some ((ListItems seed st).1,
        ⟨(ListItems seed st).2, false,
          tr ++ [(Access.readItemStore, true), (Access.readItemStore, true)]⟩) := by
  simp [ListItemsMu, ListItems, deferred]

/-- GetItem with the mutex, started with the mutex free. -/
theorem GetItemMu_free (c : Ctx) (st : Store) (tr : List (Access × Bool)) :
    ∃ new, (GetItemMu c).run ⟨st, false, tr⟩ =
        some ((GetItem c st).1, ⟨(GetItem c st).2, false, tr ++ new⟩) ∧
      ∀ e ∈ new, e.2 = true := by
  cases hid : Atoi (c.Params "id") with
  | none => exact ⟨[], by simp [GetItemMu, GetItem, hid], by simp⟩
  | some id =>
    refine ⟨[(Access.readItemStore, true)], ?_, by simp⟩
    cases hl : st.itemStore.lookup id <;> simp [GetItemMu, GetItem, deferred, hid, hl]

/-- CreateItem with the mutex, started with the mutex free. -/
theorem CreateItemMu_free (c : Ctx) (st : Store) (tr : List (Access × Bool)) :
    ∃ new, (CreateItemMu c).run ⟨st, false, tr⟩ =
        some ((CreateItem c st).1, ⟨(CreateItem c st).2, false, tr ++ new⟩) ∧
      ∀ e ∈ new, e.2 = true := by
  cases hp : c.BodyParser Item.zero with
  | none => exact ⟨[], by simp [CreateItemMu, CreateItem, hp], by simp⟩
  | some p =>
    by_cases hn : p.Name = ""
    · exact ⟨[], by simp [CreateItemMu, CreateItem, hp, hn], by simp⟩
    · by_cases hq : p.Quantity < 0
      · exact ⟨[], by simp [CreateItemMu, CreateItem, hp, hn, hq], by simp⟩
      · refine ⟨[(Access.readNextItemID, true), (Access.readNextItemID, true),
          (Access.writeNextItemID, true), (Access.writeItemStore, true)], ?_, by simp⟩
        simp [CreateItemMu, CreateItem, deferred, hp, hn, hq]

/-- UpdateItem with the mutex, started with the mutex free. -/
theorem UpdateItemMu_free (c : Ctx) (st : Store) (tr : List (Access × Bool)) :
    ∃ new, (UpdateItemMu c).run ⟨st, false, tr⟩ =
        some ((UpdateItem c st).1, ⟨(UpdateItem c st).2, false, tr ++ new⟩) ∧
      ∀ e ∈ new, e.2 = true := by
  cases hid : Atoi (c.Params "id") with
  | none => exact ⟨[], by simp [UpdateItemMu, UpdateItem, hid], by simp⟩
  | some id =>
    cases hp : c.BodyParser Item.zero with
    | none => exact ⟨[], by simp [UpdateItemMu, UpdateItem, hid, hp], by simp⟩
    | some p =>
      cases hl : st.itemStore.lookup id with
      | none =>
        exact ⟨[(Access.readItemStore, true)],
          by simp [UpdateItemMu, UpdateItem, deferred, hid, hp, hl], by simp⟩
      | some existing =>
        exact ⟨[(Access.readItemStore, true), (Access.writeItemStore, true)],
          by simp [UpdateItemMu, UpdateItem, deferred, hid, hp, hl], by simp⟩

/-- DeleteItem with the mutex, started with the mutex free. -/
theorem DeleteItemMu_free (c : Ctx) (st : Store) (tr : List (Access × Bool)) :
    ∃ new, (DeleteItemMu c).run ⟨st, false, tr⟩ =
        some ((DeleteItem c st).1, ⟨(DeleteItem c st).2, false, tr ++ new⟩) ∧
      ∀ e ∈ new, e.2 = true := by
  cases hid : Atoi (c.Params "id") with
  | none => exact ⟨[], by simp [DeleteItemMu, DeleteItem, hid], by simp⟩
  | some id =>
    cases hl : st.itemStore.lookup id with
    | none =>
      exact ⟨[(Access.readItemStore, true)],
        by simp [DeleteItemMu, DeleteItem, deferred, hid, hl], by simp⟩
    | some existing =>
      exact ⟨[(Access.readItemStore, true), (Access.writeItemStore, true)],
        by simp [DeleteItemMu, DeleteItem, deferred, hid, hl], by simp⟩

/-- A handler started while the mutex is held either blocks at `Lock` or returns an error
of the checks that precede `Lock`, with the memory untouched. -/
theorem runMu_held (call : Call) (st : Store) (tr : List (Access × Bool)) :
    call.runMu.run ⟨st, true, tr⟩ = none ∨
      ∃ code msg, call.runMu.run ⟨st, true, tr⟩ =
        some (Result.error code msg, ⟨st, true, tr⟩) := by
  cases call with
  | list seed => left; simp [Call.runMu, ListItemsMu]
  | get c =>
    cases hid : Atoi (c.Params "id") with
    | none =>
      right
      exact ⟨StatusBadRequest, "Invalid ID", by simp [Call.runMu, GetItemMu, hid]⟩
    | some id => left; simp [Call.runMu, GetItemMu, hid]
  | create c =>
    cases hp : c.BodyParser Item.zero with
    | none =>
      right
      exact ⟨StatusBadRequest, "Invalid JSON", by simp [Call.runMu, CreateItemMu, hp]⟩
    | some p =>
      by_cases hn : p.Name = ""
      · right
        exact ⟨StatusBadRequest, "Name is required",
          by simp [Call.runMu, CreateItemMu, hp, hn]⟩
      · by_cases hq : p.Quantity < 0
        · right
          exact ⟨StatusBadRequest, "Quantity must be non-negative",
            by simp [Call.runMu, CreateItemMu, hp, hn, hq]⟩
        · left; simp [Call.runMu, CreateItemMu, hp, hn, hq]
  | update c =>
    cases hid : Atoi (c.Params "id") with
    | none =>
      right
      exact ⟨StatusBadRequest, "Invalid ID", by simp [Call.runMu, UpdateItemMu, hid]⟩
    | some id =>
      cases hp : c.BodyParser Item.zero with
      | none =>
        right
        exact ⟨StatusBadRequest, "Invalid JSON", by simp [Call.runMu, UpdateItemMu, hid, hp]⟩
      | some p => left; simp [Call.runMu, UpdateItemMu, hid, hp]
  | delete c =>
    cases hid : Atoi (c.Params "id") with
    | none =>
      right
      exact ⟨StatusBadRequest, "Invalid ID", by simp [Call.runMu, DeleteItemMu, hid]⟩
    | some id => left; simp [Call.runMu, DeleteItemMu, hid]

/-- C14: lock discipline, with `storeMu` as a held/free flag.  Each of the five handlers,
started with the mutex free, returns, with the mutex free again, on every path: it returns
the result and leaves the store of the handler run as one step, and every access to
itemStore and nextItemID it made was made while the mutex was held.  Started with the
mutex held, it blocks at `Lock`, or returns an error of the checks that precede `Lock`
without having touched the memory. -/
theorem C14_lock_discipline (call : Call) (st : Store) (tr : List (Access × Bool)) :
    (∃ new, call.runMu.run ⟨st, false, tr⟩ =
        some ((call.run st).1, ⟨(call.run st).2, false, tr ++ new⟩) ∧
      ∀ e ∈ new, e.2 = true) ∧
    (call.runMu.run ⟨st, true, tr⟩ = none ∨
      ∃ code msg, call.runMu.run ⟨st, true, tr⟩ =
        some (Result.error code msg, ⟨st, true, tr⟩)) := by
  refine ⟨?_, runMu_held call st tr⟩
  cases call with
  | list seed =>
    exact ⟨[(Access.readItemStore, true), (Access.readItemStore, true)],
      ListItemsMu_free seed st tr, by simp⟩
  | get c => exact GetItemMu_free c st tr
  | create c => exact CreateItemMu_free c st tr
  | update c => exact UpdateItemMu_free c st tr
  | delete c => exact DeleteItemMu_free c st tr

/-- C14 at a create of `pen` on the fresh store: with the mutex free the handler returns
with the mutex free; with the mutex held it blocks or returns untouched. -/
theorem C14_lock_discipline_witness :
    (∃ new, (Call.create ⟨"", some ⟨none, some (.str "pen"), some (.int 10)⟩⟩).runMu.run
          ⟨Store.fresh, false, []⟩ =
        some ((Call.run (Call.create ⟨"", some ⟨none, some (.str "pen"), some (.int 10)⟩⟩) Store.fresh).1,
          ⟨(Call.run (Call.create ⟨"", some ⟨none, some (.str "pen"), some (.int 10)⟩⟩) Store.fresh).2,
            false, [] ++ new⟩) ∧
      ∀ e ∈ new, e.2 = true) ∧
    ((Call.create ⟨"", some ⟨none, some (.str "pen"), some (.int 10)⟩⟩).runMu.run
          ⟨Store.fresh, true, []⟩ = none ∨
      ∃ code msg, (Call.create ⟨"", some ⟨none, some (.str "pen"), some (.int 10)⟩⟩).runMu.run
          ⟨Store.fresh, true, []⟩ =
        some (Result.error code msg, ⟨Store.fresh, true, []⟩)) :=
  C14_lock_discipline (Call.create ⟨"", some ⟨none, some (.str "pen"), some (.int 10)⟩⟩) Store.fresh []

/-- C16 after the create of `("a", 2)` on the fresh store: the counter is at least 1, and
the update of ID 1 with the payload `("", -4)` leaves `(1, "a", 2)` under key 1, which has
the ID 1, a non-empty name and a quantity of at least 0. -/
theorem C16_reachable_wellFormed_witness :
    1 ≤ (runCalls [Call.create ⟨"", some ⟨none, some (.str "a"), some (.int 2)⟩⟩] Store.fresh).2.nextItemID ∧
    ((⟨1, "a", 2⟩ : Item).ID = 1 ∧ (⟨1, "a", 2⟩ : Item).Name ≠ "" ∧
      0 ≤ (⟨1, "a", 2⟩ : Item).Quantity) :=
  ⟨(C16_reachable_wellFormed.1 [Call.create ⟨"", some ⟨none, some (.str "a"), some (.int 2)⟩⟩]).1,
   C16_reachable_wellFormed.2 ⟨"1", some ⟨none, some (.str ""), some (.int (-4))⟩⟩
     (runCalls [Call.create ⟨"", some ⟨none, some (.str "a"), some (.int 2)⟩⟩] Store.fresh).2
     (C16_reachable_wellFormed.1 [Call.create ⟨"", some ⟨none, some (.str "a"), some (.int 2)⟩⟩])
     1 ⟨1, "a", 2⟩ (by decide)⟩

/-! ## Interleavings of concurrent creates -/

theorem split_at_index {α : Type} (l : List α) (i : Nat) (a : α) (h : l[i]? = some a) :
    ∃ l1 l2, l = l1 ++ a :: l2 ∧ ∀ b, l.set i b = l1 ++ b :: l2 := by
  induction l generalizing i with
  | nil => simp at h
  | cons x xs ih =>
    cases i with
    | zero =>
      simp only [List.getElem?_cons_zero, Option.some.injEq] at h
      subst h
      exact ⟨[], xs, rfl, fun b => rfl⟩
    | succ j =>
      simp only [List.getElem?_cons_succ] at h
      obtain ⟨l1, l2, h1, h2⟩ := ih j h
      refine ⟨x :: l1, l2, by rw [h1]; rfl, fun b => ?_⟩
      simp [List.set_cons_succ, h2 b]

theorem filter_eq_singleton_split {α : Type} (p : α → Bool) (l1 l2 : List α) (a b : α)
    (h : l1.filter p ++ a :: l2.filter p = [b]) :
    l1.filter p = [] ∧ a = b ∧ l2.filter p = [] := by
  cases h1 : l1.filter p with
  | nil =>
    rw [h1] at h
    simp only [List.nil_append, List.cons.injEq] at h
    exact ⟨rfl, h.1, h.2⟩
  | cons x xs =>
    rw [h1] at h
    simp at h

theorem doneCount_split (l1 l2 : List Goroutine) (g : Goroutine) :
    doneCount (l1 ++ g :: l2) =
      doneCount l1 + doneCount l2 + (if g.pc = CreatePC.done then 1 else 0) := by
  simp only [doneCount, List.countP_append, List.countP_cons, decide_eq_true_eq]
  omega

theorem critical_split (l1 l2 : List Goroutine) (g : Goroutine) :
    (l1 ++ g :: l2).filter (fun g => g.pc.critical) =
      l1.filter (fun g => g.pc.critical) ++
        ((if g.pc.critical then [g] else []) ++ l2.filter (fun g => g.pc.critical)) := by
  rw [List.filter_append, List.filter_cons]
  split <;> simp

theorem idsDown_not_mem (d : Nat) (k : Int) (hk : (d : Int) < k) (j : Int) :
    (k, j) ∉ idsDown d := by
  induction d with
  | zero => simp [idsDown]
  | succ n ih =>
    simp only [idsDown, List.mem_cons, not_or]
    refine ⟨?_, ih (by push_cast at hk; omega)⟩
    intro h
    simp only [Prod.mk.injEq] at h
    push_cast at hk
    omega

theorem keyIDs_insert (st : Store) (d : Nat) (it : Item) (hk : st.keyIDs = idsDown d)
    (hid : it.ID = d + 1) :
    Store.keyIDs ⟨st.itemStore.insert it.ID it, st.nextItemID⟩ = idsDown (d + 1) := by
  have hnot : it.ID ∉ st.itemStore := by
    intro hmem
    rw [AList.mem_keys, AList.keys, List.keys, List.mem_map] at hmem
    obtain ⟨e, he, hek⟩ := hmem
    have : (e.1, e.2.ID) ∈ st.keyIDs := List.mem_map.mpr ⟨e, he, rfl⟩
    rw [hk, hek, hid] at this
    exact idsDown_not_mem d _ (by omega) _ this
  simp only [Store.keyIDs, AList.insert_entries_of_neg hnot, List.map_cons, idsDown]
  rw [show st.itemStore.entries.map (fun e => (e.1, e.2.ID)) = idsDown d from hk, hid]

theorem valid_of_step (l1 l2 : List Goroutine) (g g1 : Goroutine)
    (hc : g1.c = g.c)
    (hvalid : ∀ x ∈ l1 ++ g :: l2,
      ∃ p, x.c.BodyParser Item.zero = some p ∧ p.Name ≠ "" ∧ 0 ≤ p.Quantity) :
    ∀ x ∈ l1 ++ g1 :: l2,
      ∃ p, x.c.BodyParser Item.zero = some p ∧ p.Name ≠ "" ∧ 0 ≤ p.Quantity := by
  intro x hx
  simp only [List.mem_append, List.mem_cons] at hx
  rcases hx with hx | hx | hx
  · exact hvalid x (by simp [hx])
  · rw [hx, hc]
    exact hvalid g (by simp)
  · exact hvalid x (by simp [hx])

theorem answered_of_step (l1 l2 : List Goroutine) (g g1 : Goroutine)
    (h1 : g1.pc = CreatePC.done →
      ∃ it, g1.result = some (Result.sent StatusCreated (Payload.item it)))
    (hans : ∀ x ∈ l1 ++ g :: l2, x.pc = CreatePC.done →
      ∃ it, x.result = some (Result.sent StatusCreated (Payload.item it))) :
    ∀ x ∈ l1 ++ g1 :: l2, x.pc = CreatePC.done →
      ∃ it, x.result = some (Result.sent StatusCreated (Payload.item it)) := by
  intro x hx
  simp only [List.mem_append, List.mem_cons] at hx
  rcases hx with hx | hx | hx
  · exact hans x (by simp [hx])
  · rw [hx]
    exact h1
  · exact hans x (by simp [hx])

theorem holder_of_critical (l1 l2 : List Goroutine) (g : Goroutine) (m : Mem) (d : Nat)
    (hcrit : g.pc.critical = true)
    (hfree : m.storeMu = false →
      l1.filter (fun g => g.pc.critical) ++
          ((if g.pc.critical then [g] else []) ++ l2.filter (fun g => g.pc.critical)) = [] ∧
        m.store.nextItemID = d + 1 ∧ m.store.keyIDs = idsDown d)
    (hheld : m.storeMu = true →
      ∃ h, l1.filter (fun g => g.pc.critical) ++
          ((if g.pc.critical then [g] else []) ++ l2.filter (fun g => g.pc.critical)) = [h] ∧
        holderOK d h m.store) :
    m.storeMu = true ∧ l1.filter (fun g => g.pc.critical) = [] ∧
      l2.filter (fun g => g.pc.critical) = [] ∧ holderOK d g m.store := by
  cases hmu : m.storeMu with
  | false =>
    have := (hfree hmu).1
    simp [hcrit] at this
  | true =>
    obtain ⟨h, hh, hok⟩ := hheld hmu
    simp only [hcrit, if_true, List.singleton_append] at hh
    obtain ⟨h1, h2, h3⟩ := filter_eq_singleton_split _ l1 l2 g h hh
    subst h2
    exact ⟨rfl, h1, h3, hok⟩

theorem guarded_of_access (m : Mem) (a : Access) (hmu : m.storeMu = true)
    (hguard : ∀ e ∈ m.accesses, e.2 = true) :
    ∀ e ∈ m.accesses ++ [(a, m.storeMu)], e.2 = true := by
  intro e he
  simp only [List.mem_append, List.mem_singleton] at he
  rcases he with he | he
  · exact hguard e he
  · rw [he]
    exact hmu

theorem Inv_step (l1 l2 : List Goroutine) (g g1 : Goroutine) (m m1 : Mem)
    (hInv : Config.Inv ⟨l1 ++ g :: l2, m⟩) (hstep : g.step m = some (g1, m1)) :
    Config.Inv ⟨l1 ++ g1 :: l2, m1⟩ := by
  obtain ⟨hvalid, hfree, hheld, hguard, hans⟩ := hInv
  simp only at hvalid hfree hheld hguard hans
  obtain ⟨p, hp, hn, hq⟩ := hvalid g (by simp)
  have hq2 : ¬ p.Quantity < 0 := not_lt.mpr hq
  rw [critical_split, doneCount_split] at hfree hheld
  cases hpc : g.pc with
  | entry =>
    simp only [Goroutine.step, hpc, hp, hn, hq2, if_false, Option.some.injEq,
      Prod.mk.injEq] at hstep
    obtain ⟨rfl, rfl⟩ := hstep
    simp only [hpc, CreatePC.critical] at hfree hheld
    refine ⟨valid_of_step l1 l2 g _ rfl hvalid, ?_, ?_, hguard,
      answered_of_step l1 l2 g _ (by simp) hans⟩
    · simpa [critical_split, doneCount_split, CreatePC.critical] using hfree
    · simpa [critical_split, doneCount_split, CreatePC.critical] using hheld
  | lock =>
    cases hmu : m.storeMu with
    | true => simp [Goroutine.step, hpc, hmu] at hstep
    | false =>
      simp only [Goroutine.step, hpc, Lock_run, hmu, Bool.false_eq_true, if_false,
        Option.some.injEq, Prod.mk.injEq] at hstep
      obtain ⟨rfl, rfl⟩ := hstep
      obtain ⟨hc, hnext, hkeys⟩ := hfree hmu
      have hcr : g.pc.critical = false := by rw [hpc]; rfl
      have hnd : ¬ g.pc = CreatePC.done := by rw [hpc]; decide
      simp only [hcr, hnd, Bool.false_eq_true, if_false, List.nil_append,
        List.append_eq_nil, add_zero] at hc hnext hkeys
      refine ⟨valid_of_step l1 l2 g _ rfl hvalid, ?_, ?_, hguard,
        answered_of_step l1 l2 g _ (by simp) hans⟩
      · intro h
        simp at h
      · intro _
        refine ⟨{ g with pc := CreatePC.assignID }, ?_, ?_⟩
        · rw [critical_split, hc.1, hc.2]
          rfl
        · simp only [holderOK, doneCount_split]
          simpa using ⟨hnext, hkeys⟩
  | assignID =>
    obtain ⟨hmu, hc1, hc2, hok⟩ :=
      holder_of_critical l1 l2 g m _ (by rw [hpc]; rfl) hfree hheld
    simp only [Goroutine.step, hpc, loadNextItemID_run, Option.some.injEq,
      Prod.mk.injEq] at hstep
    obtain ⟨rfl, rfl⟩ := hstep
    simp only [holderOK, hpc] at hok
    refine ⟨valid_of_step l1 l2 g _ rfl hvalid, ?_, ?_, guarded_of_access m _ hmu hguard,
      answered_of_step l1 l2 g _ (by simp) hans⟩
    · intro h
      simp [hmu] at h
    · intro _
      refine ⟨{ g with pc := CreatePC.incrLoad, newItem := { g.newItem with ID := m.store.nextItemID } }, ?_, ?_⟩
      · rw [critical_split, hc1, hc2]
        rfl
      · simp only [holderOK, doneCount_split]
        simpa [hpc] using hok
  | incrLoad =>
    obtain ⟨hmu, hc1, hc2, hok⟩ :=
      holder_of_critical l1 l2 g m _ (by rw [hpc]; rfl) hfree hheld
    simp only [Goroutine.step, hpc, loadNextItemID_run, Option.some.injEq,
      Prod.mk.injEq] at hstep
    obtain ⟨rfl, rfl⟩ := hstep
    simp only [holderOK, hpc] at hok
    refine ⟨valid_of_step l1 l2 g _ rfl hvalid, ?_, ?_, guarded_of_access m _ hmu hguard,
      answered_of_step l1 l2 g _ (by simp) hans⟩
    · intro h
      simp [hmu] at h
    · intro _
      refine ⟨{ g with pc := CreatePC.incrStore, tmp := m.store.nextItemID }, ?_, ?_⟩
      · rw [critical_split, hc1, hc2]
        rfl
      · simp only [holderOK, doneCount_split]
        simpa [hpc] using hok
  | incrStore =>
    obtain ⟨hmu, hc1, hc2, hok⟩ :=
      holder_of_critical l1 l2 g m _ (by rw [hpc]; rfl) hfree hheld
    simp only [Goroutine.step, hpc, storeNextItemID_run, Option.some.injEq,
      Prod.mk.injEq] at hstep
    obtain ⟨rfl, rfl⟩ := hstep
    simp only [holderOK, hpc] at hok
    refine ⟨valid_of_step l1 l2 g _ rfl hvalid, ?_, ?_, guarded_of_access m _ hmu hguard,
      answered_of_step l1 l2 g _ (by simp) hans⟩
    · intro h
      simp [hmu] at h
    · intro _
      refine ⟨{ g with pc := CreatePC.insert }, ?_, ?_⟩
      · rw [critical_split, hc1, hc2]
        rfl
      · simp only [holderOK, doneCount_split]
        obtain ⟨h1, h2, h3, h4⟩ := hok
        refine ⟨by simpa [hpc] using h1, ?_, by simpa [hpc, Store.keyIDs] using h4⟩
        simp only [hpc, h2]
        simp
        omega
  | insert =>
    obtain ⟨hmu, hc1, hc2, hok⟩ :=
      holder_of_critical l1 l2 g m _ (by rw [hpc]; rfl) hfree hheld
    simp only [Goroutine.step, hpc, storeItem_run, Option.some.injEq,
      Prod.mk.injEq] at hstep
    obtain ⟨rfl, rfl⟩ := hstep
    simp only [holderOK, hpc] at hok
    refine ⟨valid_of_step l1 l2 g _ rfl hvalid, ?_, ?_, guarded_of_access m _ hmu hguard,
      answered_of_step l1 l2 g _ (by simp) hans⟩
    · intro h
      simp [hmu] at h
    · intro _
      refine ⟨{ g with pc := CreatePC.unlock }, ?_, ?_⟩
      · rw [critical_split, hc1, hc2]
        rfl
      · simp only [holderOK, doneCount_split]
        obtain ⟨h1, h2, h3⟩ := hok
        refine ⟨by simpa [hpc] using h2, ?_⟩
        have := keyIDs_insert m.store _ g.newItem h3 (by simpa [hpc] using h1)
        simpa [hpc] using this
  | unlock =>
    obtain ⟨hmu, hc1, hc2, hok⟩ :=
      holder_of_critical l1 l2 g m _ (by rw [hpc]; rfl) hfree hheld
    simp only [Goroutine.step, hpc, Unlock_run, hmu, if_true, Option.some.injEq,
      Prod.mk.injEq] at hstep
    obtain ⟨rfl, rfl⟩ := hstep
    simp only [holderOK, hpc] at hok
    refine ⟨valid_of_step l1 l2 g _ rfl hvalid, ?_, ?_, hguard,
      answered_of_step l1 l2 g _ (fun _ => ⟨_, rfl⟩) hans⟩
    · intro _
      refine ⟨?_, ?_, ?_⟩
      · rw [critical_split, hc1, hc2]
        rfl
      · simp only [doneCount_split]
        simpa [hpc, add_assoc] using hok.1
      · simp only [doneCount_split]
        simpa [hpc] using hok.2
    · intro h
      simp at h
  | done => simp [Goroutine.step, hpc] at hstep

theorem Inv_start (cs : List Ctx)
    (hvalid : ∀ c ∈ cs, ∃ p, c.BodyParser Item.zero = some p ∧ p.Name ≠ "" ∧ 0 ≤ p.Quantity) :
    (Config.start cs).Inv := by
  have hcrit : (cs.map Goroutine.start).filter (fun g => g.pc.critical) = [] := by
    rw [List.filter_eq_nil_iff]
    intro g hg
    obtain ⟨c, _, rfl⟩ := List.mem_map.mp hg
    simp [Goroutine.start, CreatePC.critical]
  have hdone : doneCount (cs.map Goroutine.start) = 0 := by
    rw [doneCount, List.countP_eq_zero]
    intro g hg
    obtain ⟨c, _, rfl⟩ := List.mem_map.mp hg
    simp [Goroutine.start]
  refine ⟨?_, ?_, ?_, ?_, ?_⟩
  · intro g hg
    obtain ⟨c, hc, rfl⟩ := List.mem_map.mp hg
    exact hvalid c hc
  · intro _
    refine ⟨hcrit, ?_, ?_⟩
    · simp [Config.start, hdone, Store.fresh]
    · simp [Config.start, hdone, Store.fresh, Store.keyIDs, idsDown]
  · intro h
    simp [Config.start] at h
  · intro e he
    simp [Config.start] at he
  · intro g hg hpc
    obtain ⟨c, _, rfl⟩ := List.mem_map.mp hg
    simp [Goroutine.start] at hpc

theorem tick_none (cfg : Config) (i : Nat) (hg : cfg.gs[i]? = none) : cfg.tick i = cfg := by
  simp [Config.tick, hg]

theorem tick_waits (cfg : Config) (i : Nat) (g : Goroutine) (hg : cfg.gs[i]? = some g)
    (hs : g.step cfg.mem = none) : cfg.tick i = cfg := by
  simp [Config.tick, hg, hs]

theorem tick_steps (cfg : Config) (i : Nat) (g g1 : Goroutine) (m1 : Mem)
    (hg : cfg.gs[i]? = some g) (hs : g.step cfg.mem = some (g1, m1)) :
    cfg.tick i = { gs := cfg.gs.set i g1, mem := m1 } := by
  simp [Config.tick, hg, hs]

theorem Inv_tick (cfg : Config) (i : Nat) (hInv : cfg.Inv) : (cfg.tick i).Inv := by
  cases hg : cfg.gs[i]? with
  | none => rw [tick_none cfg i hg]; exact hInv
  | some g =>
    cases hs : g.step cfg.mem with
    | none => rw [tick_waits cfg i g hg hs]; exact hInv
    | some r =>
      obtain ⟨g1, m1⟩ := r
      obtain ⟨l1, l2, h1, h2⟩ := split_at_index cfg.gs i g hg
      rw [tick_steps cfg i g g1 m1 hg hs, h2 g1]
      have hInv2 : Config.Inv ⟨l1 ++ g :: l2, cfg.mem⟩ := by
        rw [← h1]
        exact hInv
      exact Inv_step l1 l2 g g1 cfg.mem m1 hInv2 hs

theorem runSchedule_cons (i : Nat) (sched : List Nat) (cfg : Config) :
    runSchedule (i :: sched) cfg = runSchedule sched (cfg.tick i) := rfl

theorem runSchedule_append (s1 s2 : List Nat) (cfg : Config) :
    runSchedule (s1 ++ s2) cfg = runSchedule s2 (runSchedule s1 cfg) := by
  simp [runSchedule, List.foldl_append]

theorem Inv_runSchedule (sched : List Nat) (cfg : Config) (hInv : cfg.Inv) :
    (runSchedule sched cfg).Inv := by
  induction sched generalizing cfg with
  | nil => exact hInv
  | cons i rest ih =>
    rw [runSchedule_cons]
    exact ih _ (Inv_tick cfg i hInv)

theorem tick_length (cfg : Config) (i : Nat) : (cfg.tick i).gs.length = cfg.gs.length := by
  cases hg : cfg.gs[i]? with
  | none => rw [tick_none cfg i hg]
  | some g =>
    cases hs : g.step cfg.mem with
    | none => rw [tick_waits cfg i g hg hs]
    | some r =>
      obtain ⟨g1, m1⟩ := r
      rw [tick_steps cfg i g g1 m1 hg hs]
      simp

theorem runSchedule_length (sched : List Nat) (cfg : Config) :
    (runSchedule sched cfg).gs.length = cfg.gs.length := by
  induction sched generalizing cfg with
  | nil => rfl
  | cons i rest ih => rw [runSchedule_cons, ih, tick_length]

theorem mem_idsDown (d : Nat) (k j : Int) :
    (k, j) ∈ idsDown d ↔ 1 ≤ k ∧ k ≤ d ∧ j = k := by
  induction d with
  | zero =>
    simp only [idsDown, List.not_mem_nil, Nat.cast_zero, false_iff]
    omega
  | succ n ih =>
    simp only [idsDown, List.mem_cons, Prod.mk.injEq, ih, Nat.cast_succ]
    omega

theorem idsDown_length (d : Nat) : (idsDown d).length = d := by
  induction d with
  | zero => rfl
  | succ n ih => simp [idsDown, ih]

theorem idsDown_snd (d : Nat) :
    (idsDown d).map Prod.snd = ((List.range d).map (fun (i : Nat) => (i : Int) + 1)).reverse := by
  induction d with
  | zero => rfl
  | succ n ih => simp [idsDown, ih, List.range_succ]

/-- What a store with the entries `d, ..., 1` holds. -/
theorem store_of_keyIDs (st : Store) (d : Nat) (hk : st.keyIDs = idsDown d) :
    (∀ k : Int, k ∈ st.itemStore ↔ 1 ≤ k ∧ k ≤ d) ∧
    st.itemStore.entries.length = d ∧
    (∀ (k : Int) (it : Item), st.itemStore.lookup k = some it → it.ID = k) ∧
    (st.itemStore.entries.map (fun e => e.2.ID)).Perm
      ((List.range d).map (fun (i : Nat) => (i : Int) + 1)) := by
  refine ⟨?_, ?_, ?_, ?_⟩
  · intro k
    rw [AList.mem_keys, AList.keys, List.keys, List.mem_map]
    constructor
    · rintro ⟨e, he, rfl⟩
      have : (e.1, e.2.ID) ∈ st.keyIDs := List.mem_map.mpr ⟨e, he, rfl⟩
      rw [hk, mem_idsDown] at this
      exact ⟨this.1, this.2.1⟩
    · rintro ⟨h1, h2⟩
      have : (k, k) ∈ st.keyIDs := by
        rw [hk, mem_idsDown]
        exact ⟨h1, h2, rfl⟩
      obtain ⟨e, he, hek⟩ := List.mem_map.mp this
      simp only [Prod.mk.injEq] at hek
      exact ⟨e, he, hek.1⟩
  · have := congrArg List.length hk
    simpa [Store.keyIDs, idsDown_length] using this
  · intro k it hl
    have he : (⟨k, it⟩ : Sigma fun _ : Int => Item) ∈ st.itemStore.entries :=
      AList.mem_lookup_iff.mp hl
    have : (k, it.ID) ∈ st.keyIDs := List.mem_map.mpr ⟨⟨k, it⟩, he, rfl⟩
    rw [hk, mem_idsDown] at this
    exact this.2.2
  · have h1 : st.itemStore.entries.map (fun e => e.2.ID) = st.keyIDs.map Prod.snd := by
      simp [Store.keyIDs]
    rw [h1, hk, idsDown_snd]
    exact List.reverse_perm _

/-- Once every goroutine has returned, the mutex is free and the counter and the map are
those of as many creates as there are goroutines. -/
theorem Inv_allDone (cfg : Config) (hInv : cfg.Inv) (hdone : cfg.allDone) :
    cfg.mem.storeMu = false ∧
      cfg.mem.store.nextItemID = cfg.gs.length + 1 ∧
      cfg.mem.store.keyIDs = idsDown cfg.gs.length := by
  have hcount : doneCount cfg.gs = cfg.gs.length := by
    rw [doneCount, List.countP_eq_length]
    intro g hg
    simpa using hdone g hg
  have hmu : cfg.mem.storeMu = false := by
    cases h : cfg.mem.storeMu with
    | false => rfl
    | true =>
      obtain ⟨g, hg, _⟩ := hInv.held h
      have hmem : g ∈ cfg.gs.filter (fun g => g.pc.critical) := by
        rw [hg]
        exact List.mem_singleton_self g
      rw [List.mem_filter] at hmem
      have := hdone g hmem.1
      rw [this] at hmem
      simp [CreatePC.critical] at hmem
  obtain ⟨_, h2, h3⟩ := hInv.free hmu
  rw [hcount] at h2 h3
  exact ⟨hmu, h2, h3⟩

/-- A step takes a goroutine nearer to its return. -/
theorem step_remaining (g g1 : Goroutine) (m m1 : Mem) (hs : g.step m = some (g1, m1)) :
    g1.pc.remaining < g.pc.remaining := by
  cases hpc : g.pc with
  | entry =>
    simp only [Goroutine.step, hpc] at hs
    split at hs
    · simp only [Option.some.injEq, Prod.mk.injEq] at hs
      rw [← hs.1]
      simp [CreatePC.remaining]
    · split at hs
      · simp only [Option.some.injEq, Prod.mk.injEq] at hs
        rw [← hs.1]
        simp [CreatePC.remaining]
      · split at hs <;>
        · simp only [Option.some.injEq, Prod.mk.injEq] at hs
          rw [← hs.1]
          simp [CreatePC.remaining]
  | lock =>
    cases hmu : m.storeMu with
    | true => simp [Goroutine.step, hpc, hmu] at hs
    | false =>
      simp only [Goroutine.step, hpc, Lock_run, hmu, Bool.false_eq_true, if_false,
        Option.some.injEq, Prod.mk.injEq] at hs
      rw [← hs.1]
      simp [CreatePC.remaining]
  | assignID =>
    simp only [Goroutine.step, hpc, loadNextItemID_run, Option.some.injEq,
      Prod.mk.injEq] at hs
    rw [← hs.1]
    simp [CreatePC.remaining]
  | incrLoad =>
    simp only [Goroutine.step, hpc, loadNextItemID_run, Option.some.injEq,
      Prod.mk.injEq] at hs
    rw [← hs.1]
    simp [CreatePC.remaining]
  | incrStore =>
    simp only [Goroutine.step, hpc, storeNextItemID_run, Option.some.injEq,
      Prod.mk.injEq] at hs
    rw [← hs.1]
    simp [CreatePC.remaining]
  | insert =>
    simp only [Goroutine.step, hpc, storeItem_run, Option.some.injEq, Prod.mk.injEq] at hs
    rw [← hs.1]
    simp [CreatePC.remaining]
  | unlock =>
    cases hmu : m.storeMu with
    | false => simp [Goroutine.step, hpc, hmu] at hs
    | true =>
      simp only [Goroutine.step, hpc, Unlock_run, hmu, if_true, Option.some.injEq,
        Prod.mk.injEq] at hs
      rw [← hs.1]
      simp [CreatePC.remaining]
  | done => simp [Goroutine.step, hpc] at hs

/-- No deadlock: as long as a goroutine has not returned, some goroutine can step. -/
theorem exists_step (cfg : Config) (hInv : cfg.Inv) (hnot : ¬ cfg.allDone) :
    ∃ (i : Nat) (g g1 : Goroutine) (m1 : Mem),
      cfg.gs[i]? = some g ∧ g.step cfg.mem = some (g1, m1) := by
  cases hmu : cfg.mem.storeMu with
  | true =>
    obtain ⟨g, hg, hok⟩ := hInv.held hmu
    have hmem : g ∈ cfg.gs.filter (fun g => g.pc.critical) := by
      rw [hg]
      exact List.mem_singleton_self g
    rw [List.mem_filter] at hmem
    obtain ⟨i, hi⟩ := List.mem_iff_getElem?.mp hmem.1
    suffices hs : (g.step cfg.mem).isSome by
      obtain ⟨r, hr⟩ := Option.isSome_iff_exists.mp hs
      exact ⟨i, g, r.1, r.2, hi, hr⟩
    have hcrit := hmem.2
    cases hpc : g.pc with
    | entry => rw [hpc] at hcrit; simp [CreatePC.critical] at hcrit
    | lock => rw [hpc] at hcrit; simp [CreatePC.critical] at hcrit
    | done => rw [hpc] at hcrit; simp [CreatePC.critical] at hcrit
    | assignID => simp [Goroutine.step, hpc]
    | incrLoad => simp [Goroutine.step, hpc]
    | incrStore => simp [Goroutine.step, hpc]
    | insert => simp [Goroutine.step, hpc]
    | unlock => simp [Goroutine.step, hpc, hmu]
  | false =>
    obtain ⟨hnil, _, _⟩ := hInv.free hmu
    simp only [Config.allDone, not_forall] at hnot
    obtain ⟨g, hg, hpcne⟩ := hnot
    obtain ⟨i, hi⟩ := List.mem_iff_getElem?.mp hg
    obtain ⟨p, hp, hn, hq⟩ := hInv.valid g hg
    have hq2 : ¬ p.Quantity < 0 := not_lt.mpr hq
    have hncrit : g.pc.critical = false := by
      cases h : g.pc.critical with
      | false => rfl
      | true =>
        have : g ∈ cfg.gs.filter (fun g => g.pc.critical) := List.mem_filter.mpr ⟨hg, h⟩
        rw [hnil] at this
        simp at this
    suffices hs : (g.step cfg.mem).isSome by
      obtain ⟨r, hr⟩ := Option.isSome_iff_exists.mp hs
      exact ⟨i, g, r.1, r.2, hi, hr⟩
    cases hpc : g.pc with
    | entry => simp [Goroutine.step, hpc, hp, hn, hq2]
    | lock => simp [Goroutine.step, hpc, hmu]
    | done => exact absurd hpc hpcne
    | assignID => rw [hpc] at hncrit; simp [CreatePC.critical] at hncrit
    | incrLoad => rw [hpc] at hncrit; simp [CreatePC.critical] at hncrit
    | incrStore => rw [hpc] at hncrit; simp [CreatePC.critical] at hncrit
    | insert => rw [hpc] at hncrit; simp [CreatePC.critical] at hncrit
    | unlock => rw [hpc] at hncrit; simp [CreatePC.critical] at hncrit

/-- Every configuration of the invariant can be run to the return of all goroutines. -/
theorem exists_completion (n : Nat) (cfg : Config) (hInv : cfg.Inv)
    (hn : remainingSteps cfg.gs ≤ n) :
    ∃ sched, (runSchedule sched cfg).allDone := by
  induction n generalizing cfg with
  | zero =>
    by_cases hdone : cfg.allDone
    · exact ⟨[], hdone⟩
    · obtain ⟨i, g, g1, m1, hg, hs⟩ := exists_step cfg hInv hdone
      obtain ⟨l1, l2, h1, _⟩ := split_at_index cfg.gs i g hg
      have := step_remaining g g1 cfg.mem m1 hs
      rw [h1] at hn
      simp [remainingSteps] at hn
      omega
  | succ k ih =>
    by_cases hdone : cfg.allDone
    · exact ⟨[], hdone⟩
    · obtain ⟨i, g, g1, m1, hg, hs⟩ := exists_step cfg hInv hdone
      obtain ⟨l1, l2, h1, h2⟩ := split_at_index cfg.gs i g hg
      have hlt := step_remaining g g1 cfg.mem m1 hs
      have hInv2 := Inv_tick cfg i hInv
      have hrem : remainingSteps (cfg.tick i).gs ≤ k := by
        rw [tick_steps cfg i g g1 m1 hg hs, h2 g1]
        rw [h1] at hn
        simp only [remainingSteps, List.map_append, List.map_cons, List.sum_append,
          List.sum_cons] at hn ⊢
        omega
      obtain ⟨sched, hsched⟩ := ih (cfg.tick i) hInv2 hrem
      exact ⟨i :: sched, by rw [runSchedule_cons]; exact hsched⟩

/-- A goroutine that runs alone, from a free mutex, through its seven steps returns what
`CreateItemMu` returns and leaves the memory `CreateItemMu` leaves. -/
theorem solo_agrees (c : Ctx) (st : Store) (tr : List (Access × Bool)) :
    ∃ g r m1,
      runSchedule [0, 0, 0, 0, 0, 0, 0] ⟨[Goroutine.start c], ⟨st, false, tr⟩⟩ = ⟨[g], m1⟩ ∧
      g.pc = CreatePC.done ∧ g.result = some r ∧
      (CreateItemMu c).run ⟨st, false, tr⟩ = some (r, m1) := by
  cases hp : c.BodyParser Item.zero with
  | none =>
    refine ⟨{ Goroutine.start c with
        pc := CreatePC.done, result := some (Result.error StatusBadRequest "Invalid JSON") },
      Result.error StatusBadRequest "Invalid JSON", ⟨st, false, tr⟩, ?_, rfl, rfl, ?_⟩
    · simp [runSchedule, Config.tick, Goroutine.start, Goroutine.step, hp]
    · simp [CreateItemMu, hp]
  | some p =>
    by_cases hn : p.Name = ""
    · refine ⟨{ Goroutine.start c with
          pc := CreatePC.done,
          result := some (Result.error StatusBadRequest "Name is required") },
        Result.error StatusBadRequest "Name is required", ⟨st, false, tr⟩, ?_, rfl, rfl, ?_⟩
      · simp [runSchedule, Config.tick, Goroutine.start, Goroutine.step, hp, hn]
      · simp [CreateItemMu, hp, hn]
    · by_cases hq : p.Quantity < 0
      · refine ⟨{ Goroutine.start c with
            pc := CreatePC.done,
            result := some (Result.error StatusBadRequest "Quantity must be non-negative") },
          Result.error StatusBadRequest "Quantity must be non-negative", ⟨st, false, tr⟩,
          ?_, rfl, rfl, ?_⟩
        · simp [runSchedule, Config.tick, Goroutine.start, Goroutine.step, hp, hn, hq]
        · simp [CreateItemMu, hp, hn, hq]
      · refine ⟨⟨c, CreatePC.done, ⟨st.nextItemID, p.Name, p.Quantity⟩, st.nextItemID,
            some (Result.sent StatusCreated
              (Payload.item ⟨st.nextItemID, p.Name, p.Quantity⟩))⟩,
          Result.sent StatusCreated (Payload.item ⟨st.nextItemID, p.Name, p.Quantity⟩),
          ⟨⟨st.itemStore.insert st.nextItemID ⟨st.nextItemID, p.Name, p.Quantity⟩,
              st.nextItemID + 1⟩, false,
            tr ++ [(Access.readNextItemID, true), (Access.readNextItemID, true),
              (Access.writeNextItemID, true), (Access.writeItemStore, true)]⟩,
          ?_, rfl, rfl, ?_⟩
        · simp [runSchedule, Config.tick, Goroutine.start, Goroutine.step, hp, hn, hq]
        · simp [CreateItemMu, deferred, hp, hn, hq]

/-- C13: concurrent create safety.  M goroutines run CreateItem with valid bodies against
the fresh store, their steps interleaved by an arbitrary schedule.  Whenever all of them
have returned, the store holds exactly M items: the keys are the integers 1..M, every item
carries its key as its ID, so the IDs are 1..M without duplicates and without gaps, the
counter stands at M + 1, the mutex is free and every goroutine has answered 201.  Every
interleaving, however far it has run, can be continued until all goroutines have
returned, and in every interleaving every access to the shared variables is made under
the mutex. -/
theorem C13_concurrent_creates (cs : List Ctx)
    (hvalid : ∀ c ∈ cs, ∃ p, c.BodyParser Item.zero = some p ∧ p.Name ≠ "" ∧ 0 ≤ p.Quantity) :
    (∀ sched : List Nat, (runSchedule sched (Config.start cs)).allDone →
      (runSchedule sched (Config.start cs)).mem.store.itemStore.entries.length = cs.length ∧
      (∀ k : Int, k ∈ (runSchedule sched (Config.start cs)).mem.store.itemStore ↔
        1 ≤ k ∧ k ≤ cs.length) ∧
      (∀ (k : Int) (it : Item),
        (runSchedule sched (Config.start cs)).mem.store.itemStore.lookup k = some it →
          it.ID = k) ∧
      ((runSchedule sched (Config.start cs)).mem.store.itemStore.entries.map
          (fun e => e.2.ID)).Perm
        ((List.range cs.length).map (fun (i : Nat) => (i : Int) + 1)) ∧
      (runSchedule sched (Config.start cs)).mem.store.nextItemID = cs.length + 1 ∧
      (runSchedule sched (Config.start cs)).mem.storeMu = false ∧
      (∀ g ∈ (runSchedule sched (Config.start cs)).gs,
        ∃ it, g.result = some (Result.sent StatusCreated (Payload.item it)))) ∧
    (∀ sched : List Nat, ∃ more : List Nat,
      (runSchedule (sched ++ more) (Config.start cs)).allDone) ∧
    (∀ sched : List Nat, ∀ e ∈ (runSchedule sched (Config.start cs)).mem.accesses,
      e.2 = true) := by
  have hInv : ∀ sched : List Nat, (runSchedule sched (Config.start cs)).Inv :=
    fun sched => Inv_runSchedule sched _ (Inv_start cs hvalid)
  refine ⟨?_, ?_, fun sched => (hInv sched).guarded⟩
  · intro sched hdone
    obtain ⟨hmu, hnext, hkeys⟩ := Inv_allDone _ (hInv sched) hdone
    have hlen : (runSchedule sched (Config.start cs)).gs.length = cs.length := by
      rw [runSchedule_length]
      simp [Config.start]
    rw [hlen] at hnext hkeys
    obtain ⟨h1, h2, h3, h4⟩ := store_of_keyIDs _ cs.length hkeys
    exact ⟨h2, h1, h3, h4, hnext, hmu,
      fun g hg => (hInv sched).answered g hg (hdone g hg)⟩
  · intro sched
    obtain ⟨more, hmore⟩ := exists_completion _ _ (hInv sched) (le_refl _)
    exact ⟨more, by rw [runSchedule_append]; exact hmore⟩

/-- C13 at two goroutines creating `pen` and `ink`, the second taking the mutex first while
the steps of the two alternate: all have returned, two items are stored and the counter
stands at 3. -/
theorem C13_concurrent_creates_witness :
    (runSchedule [0, 1, 1, 0, 1, 0, 1, 0, 1, 1, 0, 1, 0, 0, 0, 0, 0, 0]
        (Config.start [⟨"", some ⟨none, some (.str "pen"), some (.int 10)⟩⟩,
          ⟨"", some ⟨none, some (.str "ink"), some (.int 0)⟩⟩])).allDone ∧
    (runSchedule [0, 1, 1, 0, 1, 0, 1, 0, 1, 1, 0, 1, 0, 0, 0, 0, 0, 0]
        (Config.start [⟨"", some ⟨none, some (.str "pen"), some (.int 10)⟩⟩,
          ⟨"", some ⟨none, some (.str "ink"),
            some (.int 0)⟩⟩])).mem.store.itemStore.entries.length =
      [(⟨"", some ⟨none, some (.str "pen"), some (.int 10)⟩⟩ : Ctx),
        ⟨"", some ⟨none, some (.str "ink"), some (.int 0)⟩⟩].length ∧
    (runSchedule [0, 1, 1, 0, 1, 0, 1, 0, 1, 1, 0, 1, 0, 0, 0, 0, 0, 0]
        (Config.start [⟨"", some ⟨none, some (.str "pen"), some (.int 10)⟩⟩,
          ⟨"", some ⟨none, some (.str "ink"), some (.int 0)⟩⟩])).mem.store.nextItemID =
      ([(⟨"", some ⟨none, some (.str "pen"), some (.int 10)⟩⟩ : Ctx),
        ⟨"", some ⟨none, some (.str "ink"), some (.int 0)⟩⟩].length : Nat) + 1 :=
  have h := (C13_concurrent_creates
    [⟨"", some ⟨none, some (.str "pen"), some (.int 10)⟩⟩,
      ⟨"", some ⟨none, some (.str "ink"), some (.int 0)⟩⟩]
    (by
      intro c hc
      simp only [List.mem_cons, List.mem_singleton, List.not_mem_nil, or_false] at hc
      rcases hc with rfl | rfl <;> exact ⟨_, rfl, by decide, by decide⟩)).1
    [0, 1, 1, 0, 1, 0, 1, 0, 1, 1, 0, 1, 0, 0, 0, 0, 0, 0]
    (by unfold Config.allDone; decide)
  ⟨by unfold Config.allDone; decide, h.1, h.2.2.2.2.1⟩

end Handlers
